import Mathlib

/-!
Verification of the `caesar-sims` arena simulation engine (Rust) against its
natural-language specification, via a shallow embedding in Lean 4.

Modelling conventions, used consistently below:

* `rust_decimal::Decimal` values are modelled as rationals (`ℚ`).  Addition,
  subtraction, negation, `abs`, `min`/`max` and comparisons on `Decimal` are
  exact, and are modelled by the corresponding exact operations on `ℚ`.
  `Decimal` division rounds the true quotient to at most 28 fractional
  digits; it is modelled by `decDiv` below.  `Decimal` multiplication is
  exact whenever the product fits within 28 fractional digits, and
  otherwise drops the excess digits with the same rounding as division;
  the one product the embedded code takes of a full-scale operand — the
  pro-rata fee payment `transit_pool * share`, whose `share` factor is a
  28-digit quotient — is therefore modelled by `decMul` below, and every
  other product is modelled exactly.
* `f64` quantities are modelled as rationals with exact arithmetic (an
  exact-real idealization; no fact proved here depends on binary rounding
  at the magnitudes involved).  The two `f64` constants that are not
  rational — `e^{-λ}` demurrage factors and Euclidean square roots — are
  abstracted as explicit parameters (`CycleParams`) of the embedded
  node-execution cycle.
* Rust `u32`/`u64`/`usize` counters are modelled as `ℕ`; the code only uses
  `saturating_sub` or subtractions guarded to be non-negative, which
  truncated `ℕ` subtraction models faithfully.
* Fallible operations return `Except`; `&mut self` methods take and return
  the state value.
-/

-- ===========================================================================
-- Decimal model
-- ===========================================================================

/-- Scaling constant for the 28-fractional-digit capacity of
`rust_decimal::Decimal`. -/
def decScale : ℚ := 10 ^ 28

/-- Rounds a rational to at most 28 fractional digits, half away from zero.
This models the final rounding step of `rust_decimal` division (for example
`2/3` evaluates to `0.6666666666666666666666666667`).  A tie (remainder
exactly one half) never occurs in any fact proved in this file, so the
choice of tie-breaking rule is immaterial here. -/
def decRound28 (q : ℚ) : ℚ :=
  if q < 0 then -((⌊(-q) * decScale + 1 / 2⌋ : ℚ) / decScale)
  else ((⌊q * decScale + 1 / 2⌋ : ℚ) / decScale)

/-- Model of `rust_decimal` division: the exact quotient rounded to 28
fractional digits.  Division by zero panics in Rust; the `0` result in that
case is an arbitrary total-function default, never reached by the embedded
code (every division site is guarded or has a constant nonzero divisor). -/
def decDiv (a b : ℚ) : ℚ :=
  if b = 0 then 0 else decRound28 (a / b)

/-- Model of `rust_decimal` multiplication at sites where the product can
exceed 28 fractional digits: the exact product rounded to 28 digits.  When
the exact product already fits, `decRound28` is the identity and the
multiplication is exact; when it overflows, `rust_decimal` drops the excess
digits and rounds up (away from zero) exactly when the most significant
dropped digit is at least 5 — which coincides with rounding the exact
product half away from zero, as `decRound28` does (for example
`0.2 * (1/3 as a 28-digit Decimal quotient)` evaluates to
`0.0666666666666666666666666667`). -/
def decMul (a b : ℚ) : ℚ := decRound28 (a * b)

/-- Model of `Decimal::clamp` / `f64::clamp`: `min(max(x, lo), hi)`. -/
def clampQ (x lo hi : ℚ) : ℚ := min (max x lo) hi

/-- Decidable equality of `Except` results (for concrete evaluation of the
fallible operations below). -/
instance {ε α : Type} [DecidableEq ε] [DecidableEq α] :
    DecidableEq (Except ε α) := fun a b =>
  match a, b with
  | Except.ok x, Except.ok y => decidable_of_iff (x = y) (by simp)
  | Except.error x, Except.error y => decidable_of_iff (x = y) (by simp)
  | Except.ok _, Except.error _ => isFalse (by simp)
  | Except.error _, Except.ok _ => isFalse (by simp)

-- ===========================================================================
-- Core value types (src/core_types.rs)
-- ===========================================================================

namespace Core

/-- `MarketTier` from `core_types.rs` (L0 retail … L3 sovereign). -/
inductive MarketTier
  | L0
  | L1
  | L2
  | L3
deriving DecidableEq, Repr

/-- `GoldGrams` is a newtype over `Decimal`; modelled directly as `ℚ`. -/
abbrev GoldGrams := ℚ

end Core

-- ===========================================================================
-- Governor PID (src/core_governor/pid.rs and params.rs)
-- ===========================================================================

namespace Core

/-- Per-tier active packet counts (`TierCounts`). -/
structure TierCounts where
  l0 : ℕ
  l1 : ℕ
  l2 : ℕ
  l3 : ℕ
deriving DecidableEq, Repr

/-- Default `TierCounts` (all zero). -/
def TierCounts.default : TierCounts := ⟨0, 0, 0, 0⟩

/-- `NetworkMetrics` fed into the Governor each control cycle. -/
structure NetworkMetrics where
  current_gold_price_usd : ℚ
  target_gold_price_usd : ℚ
  market_volatility : ℚ
  transaction_volume : ℚ
  liquidity_depth : ℚ
  network_velocity : ℚ
  active_packets_by_tier : TierCounts
  in_transit_float : ℚ
deriving DecidableEq, Repr

/-- `DemurrageRate` from `core_types.rs` (decay rate and max TTL). -/
structure DemurrageRate where
  lambda : ℚ
  max_ttl_secs : ℕ
deriving DecidableEq, Repr

/-- Network pressure quadrant (`params.rs`). -/
inductive PressureQuadrant
  | GoldenEra
  | Bubble
  | Crash
  | Stagnation
  | Bottleneck
  | Vacuum
deriving DecidableEq, Repr

/-- Per-tier fee modifiers (`TierModifiers`). -/
structure TierModifiers where
  l0 : ℚ
  l1 : ℚ
  l2 : ℚ
  l3 : ℚ
deriving DecidableEq, Repr

/-- Default `TierModifiers` (all `1`). -/
def TierModifiers.default : TierModifiers := ⟨1, 1, 1, 1⟩

/-- Per-tier modifier lookup (`TierModifiers::for_tier`). -/
def TierModifiers.for_tier (t : TierModifiers) : MarketTier → ℚ
  | .L0 => t.l0
  | .L1 => t.l1
  | .L2 => t.l2
  | .L3 => t.l3

/-- Constitutional fee caps per tier (`FeeCaps`). -/
structure FeeCaps where
  l0 : ℚ
  l1 : ℚ
  l2 : ℚ
  l3 : ℚ
deriving DecidableEq, Repr

/-- Default `FeeCaps`: 5%, 2%, 0.5%, 0.1%. -/
def FeeCaps.default : FeeCaps := ⟨0.05, 0.02, 0.005, 0.001⟩

/-- Cap lookup (`FeeCaps::cap_for`). -/
def FeeCaps.cap_for (c : FeeCaps) : MarketTier → ℚ
  | .L0 => c.l0
  | .L1 => c.l1
  | .L2 => c.l2
  | .L3 => c.l3

/-- Per-tier demurrage overrides (`TierDemurrageOverrides`); the engine only
ever uses the default (all `none`). -/
structure TierDemurrageOverrides where
  l0 : Option DemurrageRate
  l1 : Option DemurrageRate
  l2 : Option DemurrageRate
  l3 : Option DemurrageRate
deriving DecidableEq, Repr

/-- Default `TierDemurrageOverrides` (all `none`). -/
def TierDemurrageOverrides.default : TierDemurrageOverrides := ⟨none, none, none, none⟩

/-- Output of the Governor PID controller (`GovernanceParams`). -/
structure GovernanceParams where
  fee_modifiers : TierModifiers
  demurrage_overrides : TierDemurrageOverrides
  pressure : PressureQuadrant
  health_score : ℚ
  recommended_fee_adjustment : ℚ
  fee_caps : FeeCaps
deriving DecidableEq, Repr

/-- Default `GovernanceParams` (`params.rs`). -/
def GovernanceParams.default : GovernanceParams :=
  { fee_modifiers := TierModifiers.default
    demurrage_overrides := TierDemurrageOverrides.default
    pressure := PressureQuadrant.GoldenEra
    health_score := 50
    recommended_fee_adjustment := 0
    fee_caps := FeeCaps.default }

/-- Threshold and share constants from `pid.rs`. -/
def MAX_FEE_ADJ : ℚ := 0.02

/-- Lower clamp bound for the recommended fee adjustment. -/
def MIN_FEE_ADJ : ℚ := -0.02

/-- Emergency gold-deviation threshold (`0.18`). -/
def GOLD_DEV_EMERGENCY : ℚ := 0.18

/-- High network-velocity threshold. -/
def HIGH_VELOCITY : ℚ := 1.5

/-- Low network-velocity threshold. -/
def LOW_VELOCITY : ℚ := 0.3

/-- Low transaction-volume threshold. -/
def LOW_VOLUME : ℚ := 100000

/-- High transaction-volume threshold. -/
def HIGH_VOLUME : ℚ := 1000000

/-- Low liquidity threshold. -/
def LOW_LIQUIDITY : ℚ := 100000

/-- High liquidity threshold. -/
def HIGH_LIQUIDITY : ℚ := 1000000

/-- Egress share of a fee (80%). -/
def EGRESS_SHARE : ℚ := 0.8

/-- Transit share of a fee (20%). -/
def TRANSIT_SHARE : ℚ := 0.2

/-- State of the core `GovernorPid` controller. -/
structure GovernorPid where
  last_params : GovernanceParams
  integral_error : ℚ
  kp : ℚ
  ki : ℚ
  kd : ℚ
deriving DecidableEq, Repr

/-- `GovernorPid::new` — default gains Kp=0.5, Ki=0.1, Kd=0.05. -/
def GovernorPid.new : GovernorPid :=
  { last_params := GovernanceParams.default
    integral_error := 0
    kp := 0.5
    ki := 0.1
    kd := 0.05 }

/-- `GovernorPid::gold_deviation` — relative deviation of the gold price
from target, `0` when the target is zero. -/
def GovernorPid.gold_deviation (_g : GovernorPid) (m : NetworkMetrics) : ℚ :=
  if m.target_gold_price_usd = 0 then 0
  else decDiv (m.current_gold_price_usd - m.target_gold_price_usd) m.target_gold_price_usd

/-- `GovernorPid::classify_pressure` — the six-way pressure quadrant
classification from `pid.rs` lines 129-146. -/
def GovernorPid.classify_pressure (g : GovernorPid) (m : NetworkMetrics) : PressureQuadrant :=
  let dev := g.gold_deviation m
  if GOLD_DEV_EMERGENCY < dev then
    if HIGH_VELOCITY < m.network_velocity then PressureQuadrant.Bubble
    else PressureQuadrant.Bottleneck
  else if dev < -GOLD_DEV_EMERGENCY then PressureQuadrant.Crash
  else if m.network_velocity < LOW_VELOCITY ∧ m.transaction_volume < LOW_VOLUME then
    PressureQuadrant.Stagnation
  else if HIGH_LIQUIDITY < m.liquidity_depth ∧ m.transaction_volume < LOW_VOLUME then
    PressureQuadrant.Vacuum
  else PressureQuadrant.GoldenEra

/-- `GovernorPid::calculate_economic_health_score` — weighted 40/30/20/10
blend of gold, volatility, transaction and liquidity components. -/
def GovernorPid.calculate_economic_health_score (g : GovernorPid) (m : NetworkMetrics) : ℚ :=
  let gold := max (1 - |g.gold_deviation m|) 0 * 10
  let vol := max (1 - m.market_volatility) 0 * 10
  let txn := min (decDiv m.transaction_volume HIGH_VOLUME) 10
  let liq := min (decDiv m.liquidity_depth LOW_LIQUIDITY) 10
  gold * 0.4 + vol * 0.3 + txn * 0.2 + liq * 0.1

/-- `GovernorPid::score_to_fee_adjustment` — bracketed mapping from the
health score to a base fee adjustment (`pid.rs` lines 158-166; note the
brackets compare against 85, 75, 65, 55, 50, 40). -/
def GovernorPid.score_to_fee_adjustment (_g : GovernorPid) (score : ℚ) : ℚ :=
  if 85 ≤ score then -0.008
  else if 75 ≤ score then -0.006
  else if 65 ≤ score then -0.004
  else if 55 ≤ score then -0.002
  else if 50 ≤ score then 0
  else if 40 ≤ score then 0.002
  else 0.005

/-- `GovernorPid::compute_tier_modifiers` — per-tier sensitivity scaling of
the fee adjustment. -/
def GovernorPid.compute_tier_modifiers (_g : GovernorPid) (adj : ℚ) : TierModifiers :=
  { l0 := 1 + adj * 1.5
    l1 := 1 + adj * 1.2
    l2 := 1 + adj * 0.8
    l3 := 1 + adj * 0.5 }

/-- `GovernorPid::recalculate` — one PID control cycle (`pid.rs` lines
106-126).  Returns the produced `GovernanceParams` together with the updated
controller state. -/
def GovernorPid.recalculate (g : GovernorPid) (m : NetworkMetrics) :
    GovernanceParams × GovernorPid :=
  let error := g.gold_deviation m
  let health := g.calculate_economic_health_score m
  let base_adj := g.score_to_fee_adjustment health
  let integral_error := g.integral_error + error
  let derivative := error - g.last_params.recommended_fee_adjustment
  let pid := g.kp * error + g.ki * integral_error + g.kd * derivative
  let clamped := clampQ (base_adj + pid) MIN_FEE_ADJ MAX_FEE_ADJ
  let params : GovernanceParams :=
    { fee_modifiers := g.compute_tier_modifiers clamped
      demurrage_overrides := TierDemurrageOverrides.default
      pressure := g.classify_pressure m
      health_score := health
      recommended_fee_adjustment := clamped
      fee_caps := FeeCaps.default }
  (params, { g with last_params := params, integral_error := integral_error })

/-- `GovernorPid::calculate_fee` — effective fee for a tier: raw fee floored
at zero, then capped at `packet_value * fee_cap`. -/
def GovernorPid.calculate_fee (_g : GovernorPid) (p : GovernanceParams)
    (tier : MarketTier) (base packet_value : ℚ) : ℚ :=
  let raw := max (base * p.fee_modifiers.for_tier tier) 0
  let max_fee := packet_value * p.fee_caps.cap_for tier
  min raw max_fee

end Core

-- ===========================================================================
-- Spec-side PID comparator (§4.E of spec.md)
-- ===========================================================================

/-- Modelled from the spec (for comparison with `Core.GovernorPid.recalculate`
only): one step of the fee-adjustment recursion of spec §4.E.  State is
`(I, e_prev)`; the integral is clamped to `[-0.1, 0.1]` after each update
(anti-windup) and the derivative is `e - e_prev` with `e_prev` the previous
error.  Returns the new `(I, e_prev)` and the recommended fee adjustment
`clamp(base_adj + 0.5·e + 0.1·I + 0.05·D, -0.02, 0.02)`. -/
def specPidStep (st : ℚ × ℚ) (base_adj e : ℚ) : (ℚ × ℚ) × ℚ :=
  let integral := clampQ (st.1 + e) (-0.1) 0.1
  let derivative := e - st.2
  let adj := clampQ (base_adj + 0.5 * e + 0.1 * integral + 0.05 * derivative) (-0.02) 0.02
  ((integral, e), adj)

-- ===========================================================================
-- Core conservation law (src/core_conservation.rs)
-- ===========================================================================

namespace CoreConservation

/-- Errors raised when conservation invariants are violated
(`ConservationError`). -/
inductive ConservationError
  | circuitBreakerTripped (cumulative : ℚ)
  | settlementImbalance (expected actual : ℚ)
deriving DecidableEq, Repr

/-- Tracks cumulative conservation error and the circuit-breaker state
(`core_conservation.rs::ConservationLaw`). -/
structure ConservationLaw where
  cumulative_error : ℚ
  circuit_breaker_threshold : ℚ
  circuit_breaker_tripped : Bool
deriving DecidableEq, Repr

/-- `ConservationLaw::new` with a given threshold. -/
def ConservationLaw.new (threshold : ℚ) : ConservationLaw :=
  { cumulative_error := 0
    circuit_breaker_threshold := threshold
    circuit_breaker_tripped := false }

/-- Per-settlement tolerance (`SETTLEMENT_TOLERANCE = 0.0001`). -/
def SETTLEMENT_TOLERANCE : ℚ := 0.0001

/-- `ConservationLaw::verify_settlement` (`core_conservation.rs` lines
77-108): a tripped breaker rejects immediately without touching state; the
absolute error is accumulated regardless of the tolerance; the breaker
trips when the cumulative error exceeds the threshold; otherwise an error
above tolerance reports a settlement imbalance. -/
def ConservationLaw.verify_settlement (s : ConservationLaw)
    (initial_value settled_value fees demurrage : ℚ) :
    Except ConservationError Unit × ConservationLaw :=
  if s.circuit_breaker_tripped then
    (Except.error (ConservationError.circuitBreakerTripped s.cumulative_error), s)
  else
    let expected := initial_value
    let actual := settled_value + fees + demurrage
    let error := |expected - actual|
    let s1 := { s with cumulative_error := s.cumulative_error + error }
    if s1.circuit_breaker_threshold < s1.cumulative_error then
      (Except.error (ConservationError.circuitBreakerTripped s1.cumulative_error),
       { s1 with circuit_breaker_tripped := true })
    else if SETTLEMENT_TOLERANCE < error then
      (Except.error (ConservationError.settlementImbalance expected actual), s1)
    else
      (Except.ok (), s1)

/-- `ConservationLaw::is_circuit_breaker_tripped`. -/
def ConservationLaw.is_circuit_breaker_tripped (s : ConservationLaw) : Bool :=
  s.circuit_breaker_tripped

/-- `ConservationLaw::reset_circuit_breaker` — clears the tripped flag and
zeroes the cumulative error. -/
def ConservationLaw.reset_circuit_breaker (s : ConservationLaw) : ConservationLaw :=
  { s with circuit_breaker_tripped := false, cumulative_error := 0 }

/-- Arguments of one `verify_settlement` call, for stating facts about call
sequences. -/
structure CallArgs where
  initial_value : ℚ
  settled_value : ℚ
  fees : ℚ
  demurrage : ℚ
deriving DecidableEq, Repr

/-- Runs a sequence of `verify_settlement` calls, returning the final state
and the list of results. -/
def runCalls (s : ConservationLaw) : List CallArgs →
    ConservationLaw × List (Except ConservationError Unit)
  | [] => (s, [])
  | a :: rest =>
    let r := s.verify_settlement a.initial_value a.settled_value a.fees a.demurrage
    let t := runCalls r.2 rest
    (t.1, r.1 :: t.2)

end CoreConservation

-- ===========================================================================
-- Arena conservation law (src/conservation.rs, f64)
-- ===========================================================================

namespace ArenaConservation

/-- Settlement tolerance (`TOLERANCE = 0.0001`, f64). -/
def TOLERANCE : ℚ := 0.0001

/-- `compute_conservation` — absolute leakage
`|total_input - (total_output + total_burned + total_fees + active_value)|`. -/
def compute_conservation (total_input total_output total_burned total_fees active_value : ℚ) : ℚ :=
  |total_input - (total_output + total_burned + total_fees + active_value)|

/-- Outcome of a single conservation check (`ConservationResult`). -/
structure ConservationResult where
  balanced : Bool
  error : ℚ
  circuit_breaker_tripped : Bool
deriving DecidableEq, Repr

/-- `conservation.rs::ConservationLaw` — f64 variant with a
consecutive-violation counter. -/
structure ConservationLaw where
  cumulative_error : ℚ
  circuit_breaker_threshold : ℚ
  circuit_breaker_tripped : Bool
  consecutive_violations : ℕ
deriving DecidableEq, Repr

/-- `ConservationLaw::new`. -/
def ConservationLaw.new (threshold : ℚ) : ConservationLaw :=
  { cumulative_error := 0
    circuit_breaker_threshold := threshold
    circuit_breaker_tripped := false
    consecutive_violations := 0 }

/-- `ConservationLaw::verify_settlement` (`conservation.rs` lines 78-104):
the error is accumulated only when it is **not** balanced (`error ≥
tolerance`); the breaker trips when cumulative error exceeds the threshold;
the call never rejects on entry even when already tripped. -/
def ConservationLaw.verify_settlement (s : ConservationLaw)
    (initial settled fees demurrage : ℚ) : ConservationResult × ConservationLaw :=
  let error := |initial - (settled + fees + demurrage)|
  let balanced := decide (error < TOLERANCE)
  let s1 :=
    if balanced then { s with consecutive_violations := 0 }
    else { s with cumulative_error := s.cumulative_error + error,
                  consecutive_violations := s.consecutive_violations + 1 }
  let s2 :=
    if s1.circuit_breaker_threshold < s1.cumulative_error then
      { s1 with circuit_breaker_tripped := true }
    else s1
  ({ balanced := balanced, error := error,
     circuit_breaker_tripped := s2.circuit_breaker_tripped }, s2)

/-- `ConservationLaw::verify_tick` (`conservation.rs` lines 109-137). -/
def ConservationLaw.verify_tick (s : ConservationLaw)
    (total_input total_output total_fees total_burned active_in_flight : ℚ) :
    ConservationResult × ConservationLaw :=
  let expected := total_output + total_fees + total_burned + active_in_flight
  let error := |total_input - expected|
  let balanced := decide (error < TOLERANCE)
  let s1 :=
    if balanced then { s with consecutive_violations := 0 }
    else { s with cumulative_error := s.cumulative_error + error,
                  consecutive_violations := s.consecutive_violations + 1 }
  let s2 :=
    if s1.circuit_breaker_threshold < s1.cumulative_error then
      { s1 with circuit_breaker_tripped := true }
    else s1
  ({ balanced := balanced, error := error,
     circuit_breaker_tripped := s2.circuit_breaker_tripped }, s2)

/-- `ConservationLaw::reset_circuit_breaker`. -/
def ConservationLaw.reset_circuit_breaker (s : ConservationLaw) : ConservationLaw :=
  { s with cumulative_error := 0, circuit_breaker_tripped := false,
           consecutive_violations := 0 }

end ArenaConservation

-- ===========================================================================
-- Fee distribution (src/core_fee_distribution.rs)
-- ===========================================================================

namespace CoreFee

/-- `NodeId` is a string newtype; modelled as `String`. -/
abbrev NodeId := String

/-- A payment to a specific node (`NodePayment`). -/
structure NodePayment where
  node_id : NodeId
  amount : ℚ
deriving DecidableEq, Repr

/-- Complete distribution of a single fee (`FeeDistribution`). -/
structure FeeDistribution where
  total_fee : ℚ
  egress_payment : NodePayment
  transit_payments : List NodePayment
deriving DecidableEq, Repr

/-- Errors from fee distribution (`FeeError`). -/
inductive FeeError
  | zeroFee
deriving DecidableEq, Repr

/-- Stateless fee splitter holding the egress/transit shares
(`FeeDistributor`). -/
structure FeeDistributor where
  egress_share : ℚ
  transit_share : ℚ
deriving DecidableEq, Repr

/-- Default `FeeDistributor`: 0.80 / 0.20. -/
def FeeDistributor.default : FeeDistributor := ⟨0.80, 0.20⟩

/-- Total bytes relayed over a transit list. -/
def totalBytes (transit_nodes : List (NodeId × ℕ)) : ℕ :=
  (transit_nodes.map Prod.snd).sum

/-- `FeeDistributor::distribute_fee` (`core_fee_distribution.rs` lines
78-142).  Zero fee is an error; with no transit nodes the egress receives
the whole fee; otherwise the egress receives `fee * egress_share` and the
transit pool `fee * transit_share` is split equally when the total relayed
byte count is zero, else pro rata by bytes: each share is the Decimal
quotient `bytes / total_bytes` (modelled by `decDiv`) and each payment the
Decimal product `transit_pool * share`, which carries the quotient's full
28-digit scale and is therefore rounded (modelled by `decMul`). -/
def FeeDistributor.distribute_fee (d : FeeDistributor) (total_fee : ℚ)
    (egress_node : NodeId) (transit_nodes : List (NodeId × ℕ)) :
    Except FeeError FeeDistribution :=
  if total_fee = 0 then Except.error FeeError.zeroFee
  else if transit_nodes.isEmpty then
    Except.ok
      { total_fee := total_fee
        egress_payment := { node_id := egress_node, amount := total_fee }
        transit_payments := [] }
  else
    let egress_amount := total_fee * d.egress_share
    let transit_pool := total_fee * d.transit_share
    let total_bytes := totalBytes transit_nodes
    let transit_payments :=
      if total_bytes = 0 then
        let per_node := decDiv transit_pool (transit_nodes.length : ℚ)
        transit_nodes.map (fun kv => NodePayment.mk kv.1 per_node)
      else
        transit_nodes.map (fun kv =>
          let share := decDiv (kv.2 : ℚ) (total_bytes : ℚ)
          NodePayment.mk kv.1 (decMul transit_pool share))
    Except.ok
      { total_fee := total_fee
        egress_payment := { node_id := egress_node, amount := egress_amount }
        transit_payments := transit_payments }

end CoreFee

-- ===========================================================================
-- Gravity dissolution (src/dissolution.rs, f64)
-- ===========================================================================

namespace Dissolution

/-- Simulation-scale dissolution timeout in ticks. -/
def DISSOLUTION_TIMEOUT_TICKS : ℕ := 5000

/-- Dissolution errors (`DissolutionError`). -/
inductive DissolutionError
  | noQualifiedNodes
  | zeroResidualValue
  | notEligible
deriving DecidableEq, Repr

/-- Six-criterion node qualification record (`GravityQualification`). -/
structure GravityQualification where
  node_id : ℕ
  upi_active : Bool
  engauge_active : Bool
  kyc_attested : Bool
  caesar_active : Bool
  demonstrable_capacity : Bool
  active_routing_current_epoch : Bool
deriving DecidableEq, Repr

/-- `GravityQualification::is_qualified` — all six criteria must hold. -/
def GravityQualification.is_qualified (q : GravityQualification) : Bool :=
  q.upi_active && q.engauge_active && q.kyc_attested && q.caesar_active &&
    q.demonstrable_capacity && q.active_routing_current_epoch

/-- A single node's share of the dissolved residual (`GravityDistribution`). -/
structure GravityDistribution where
  node_id : ℕ
  amount : ℚ
  held_shards : Bool
deriving DecidableEq, Repr

/-- Aggregate result of a dissolution (`DissolutionResult`). -/
structure DissolutionResult where
  total_dissolved : ℚ
  distributions : List GravityDistribution
deriving DecidableEq, Repr

/-- Weight of one eligible node: 2 for shard holders, 1 otherwise. -/
def nodeWeight (shard_holder_ids : List ℕ) (q : GravityQualification) : ℚ :=
  if shard_holder_ids.contains q.node_id then 2 else 1

/-- `dissolve` (`dissolution.rs` lines 99-141): filter to nodes passing all
six criteria; error when none qualify; error when the residual is
non-positive; otherwise each eligible node receives
`residual * (weight / total_weight)`. -/
def dissolve (residual_value : ℚ) (qualified_nodes : List GravityQualification)
    (shard_holder_ids : List ℕ) : Except DissolutionError DissolutionResult :=
  let eligible := qualified_nodes.filter (fun q => q.is_qualified)
  if eligible.isEmpty then Except.error DissolutionError.noQualifiedNodes
  else if residual_value ≤ 0 then Except.error DissolutionError.zeroResidualValue
  else
    let weights := eligible.map (fun q =>
      let held := shard_holder_ids.contains q.node_id
      (q.node_id, nodeWeight shard_holder_ids q, held))
    let total_weight := (weights.map (fun w => w.2.1)).sum
    let distributions := weights.map (fun w =>
      GravityDistribution.mk w.1 (residual_value * (w.2.1 / total_weight)) w.2.2)
    Except.ok { total_dissolved := residual_value, distributions := distributions }

/-- `is_eligible_ticks` — at least `DISSOLUTION_TIMEOUT_TICKS` elapsed. -/
def is_eligible_ticks (elapsed_ticks : ℕ) : Bool :=
  DISSOLUTION_TIMEOUT_TICKS ≤ elapsed_ticks

end Dissolution

-- ===========================================================================
-- Arena types (src/types.rs)
-- ===========================================================================

namespace Arena

/-- Arena `MarketTier` (`types.rs`). -/
inductive MarketTier
  | L0
  | L1
  | L2
  | L3
deriving DecidableEq, Repr

/-- `MarketTier::fee_cap`. -/
def MarketTier.fee_cap : MarketTier → ℚ
  | .L0 => 0.05
  | .L1 => 0.02
  | .L2 => 0.005
  | .L3 => 0.001

/-- `MarketTier::ttl_ticks`. -/
def MarketTier.ttl_ticks : MarketTier → ℕ
  | .L0 => 100
  | .L1 => 500
  | .L2 => 2000
  | .L3 => 7000

/-- `MarketTier::hop_limit`. -/
def MarketTier.hop_limit : MarketTier → ℕ
  | .L0 => 10
  | .L1 => 20
  | .L2 => 40
  | .L3 => 80

/-- `NodeRole` (`types.rs`). -/
inductive NodeRole
  | Ingress
  | Egress
  | Transit
  | NGauge
  | Disabled
deriving DecidableEq, Repr

/-- `NodeStrategy` (`types.rs`). -/
inductive NodeStrategy
  | RiskAverse
  | Greedy
  | Passive
deriving DecidableEq, Repr

/-- `PacketStatus` (`types.rs`, canonical eleven-state lifecycle). -/
inductive PacketStatus
  | Minted
  | InTransit
  | Delivered
  | Settling
  | Settled
  | Held
  | Stalled
  | Dispersed
  | Expired
  | Refunded
  | Dissolved
deriving DecidableEq, Repr

/-- `SimPacket` (`types.rs`); f64 value fields modelled as `ℚ`. -/
structure SimPacket where
  id : ℕ
  original_value : ℚ
  current_value : ℚ
  arrival_tick : ℕ
  status : PacketStatus
  origin_node : ℕ
  target_node : Option ℕ
  hops : ℕ
  route_history : List ℕ
  orbit_start_tick : Option ℕ
  tier : MarketTier
  ttl : ℕ
  hop_limit : ℕ
  fee_budget : ℚ
  fees_consumed : ℚ
  fee_schedule : List ℚ
  spawn_tick : ℕ
deriving DecidableEq, Repr

/-- `SimNode` (`types.rs`); f64 fields modelled as `ℚ`. -/
structure SimNode where
  id : ℕ
  role : NodeRole
  x : ℚ
  y : ℚ
  inventory_fiat : ℚ
  inventory_crypto : ℚ
  current_buffer_count : ℕ
  neighbors : List ℕ
  distance_to_egress : ℕ
  total_fees_earned : ℚ
  accumulated_work : ℚ
  strategy : NodeStrategy
  pressure : ℚ
  transit_fee : ℚ
  bandwidth : ℚ
  latency : ℚ
  uptime : ℚ
  tier_preference : Option MarketTier
  upi_active : Bool
  ngauge_running : Bool
  kyc_valid : Bool
deriving DecidableEq, Repr

/-- Placeholder node returned by out-of-range lookups.  Rust panics on an
out-of-range `nodes[i]`; every fact proved below indexes in range, so this
default is never consulted there. -/
def defaultSimNode : SimNode :=
  { id := 0, role := NodeRole.Disabled, x := 0, y := 0, inventory_fiat := 0,
    inventory_crypto := 0, current_buffer_count := 0, neighbors := [],
    distance_to_egress := 0, total_fees_earned := 0, accumulated_work := 0,
    strategy := NodeStrategy.Passive, pressure := 0, transit_fee := 0,
    bandwidth := 0, latency := 0, uptime := 0, tier_preference := none,
    upi_active := false, ngauge_running := false, kyc_valid := false }

/-- Lookup of `nodes[i]` (nodes are stored in a vector indexed by id). -/
def getNode (nodes : List SimNode) (i : ℕ) : SimNode :=
  nodes.getD i defaultSimNode

/-- In-place update `nodes[i] = f(nodes[i])`; a no-op when `i` is out of
range (mirroring the guarded `get_mut` update sites; the unguarded Rust
index sites are only reached in range). -/
def updNode (nodes : List SimNode) (i : ℕ) (f : SimNode → SimNode) : List SimNode :=
  nodes.set i (f (getNode nodes i))

-- ===========================================================================
-- Routing (src/routing.rs) and the capacity score adapter (src/adapter.rs)
-- ===========================================================================

/-- Geographic/overlay scoring weight for distance. -/
def W_DISTANCE : ℚ := 0.2

/-- Scoring weight for uptime. -/
def W_UPTIME : ℚ := 0.05

/-- Scoring weight (penalty) for the transit fee. -/
def W_TRANSIT_FEE : ℚ := 0.1

/-- Scoring bonus for a tier-preference match. -/
def W_TIER_MATCH : ℚ := 0.05

/-- Normalisation cap for buffer occupancy. -/
def BUFFER_CAPACITY : ℚ := 20

/-- Normalisation cap for bandwidth. -/
def BANDWIDTH_NORM_CAP : ℚ := 1000

/-- Normalisation cap for latency. -/
def LATENCY_NORM_CAP : ℚ := 500

/-- `adapter::score_capacity_via_core` — the core capacity formula
`0.35·bw + 0.25·buf − 0.25·lat − 0.15·load` (Decimal arithmetic on exactly
representable weights; modelled exactly). -/
def score_capacity_via_core (bandwidth buffer_free_ratio latency_norm load_norm : ℚ) : ℚ :=
  0.35 * bandwidth + 0.25 * buffer_free_ratio - 0.25 * latency_norm - 0.15 * load_norm

/-- `routing::score_candidate` — raw capacity score of a node. -/
def score_candidate (node : SimNode) : ℚ :=
  let bandwidth_norm := min (node.bandwidth / BANDWIDTH_NORM_CAP) 1
  let buffer_norm := 1 - min ((node.current_buffer_count : ℚ) / BUFFER_CAPACITY) 1
  let latency_norm := min (node.latency / LATENCY_NORM_CAP) 1
  let load_norm := min ((node.current_buffer_count : ℚ) / BUFFER_CAPACITY) 1
  score_capacity_via_core bandwidth_norm buffer_norm latency_norm load_norm

/-- `routing::distance_sq` — squared Euclidean distance. -/
def distance_sq (x1 y1 x2 y2 : ℚ) : ℚ :=
  (x1 - x2) ^ 2 + (y1 - y2) ^ 2

/-- `routing::tier_match_bonus`. -/
def tier_match_bonus (preference : Option MarketTier) (packet_tier : MarketTier) : ℚ :=
  match preference with
  | some pref => if pref = packet_tier then W_TIER_MATCH else 0
  | none => 0

/-- Parameters abstracting the two irrational f64 functions used by the
node-execution cycle: `sqrtQ` models `f64::sqrt` (the embedded facts only
evaluate it at `0`, where `sqrt 0 = 0` exactly) and `demurrage_factor`
models the per-tier constant `e^{-λ_tier}` (a value in `(0, 1]`). -/
structure CycleParams where
  sqrtQ : ℚ → ℚ
  demurrage_factor : MarketTier → ℚ

/-- `routing::compute_max_distance` — maximum neighbor-to-target distance,
used to normalise distance scores. -/
def compute_max_distance (P : CycleParams) (nodes : List SimNode)
    (neighbors : List ℕ) (target : SimNode) : ℚ :=
  neighbors.foldl
    (fun acc n_id =>
      let n := getNode nodes n_id
      max acc (P.sqrtQ (distance_sq n.x n.y target.x target.y)))
    0

/-- `routing::score_neighbor` — combined routing score of one neighbor. -/
def score_neighbor (P : CycleParams) (neighbor target : SimNode)
    (max_dist : ℚ) (packet : SimPacket) : ℚ :=
  let capacity := score_candidate neighbor
  let distance_norm :=
    if 0 < max_dist then
      min (P.sqrtQ (distance_sq neighbor.x neighbor.y target.x target.y) / max_dist) 1
    else 0
  let uptime_bonus := W_UPTIME * clampQ neighbor.uptime 0 1
  let fee_penalty := W_TRANSIT_FEE * min neighbor.transit_fee 1
  let tier_bonus := tier_match_bonus neighbor.tier_preference packet.tier
  capacity - W_DISTANCE * distance_norm + uptime_bonus - fee_penalty + tier_bonus

/-- Nearest liquid egress (`inventory_crypto > 1`), measured by squared
distance; ties keep the earliest node, as Rust `Iterator::min_by` does. -/
def nearest_egress (nodes : List SimNode) (cx cy : ℚ) : Option SimNode :=
  (nodes.filter (fun n =>
      n.role == NodeRole.Egress && decide ((1 : ℚ) < n.inventory_crypto))).foldl
    (fun acc n =>
      match acc with
      | none => some n
      | some m =>
        if distance_sq n.x n.y cx cy < distance_sq m.x m.y cx cy then some n
        else some m)
    none

/-- `routing::find_next_hop` (`routing.rs` lines 39-83): filter neighbors to
non-disabled nodes, locate the nearest liquid egress (no route when none
exists), then return the first neighbor attaining the maximal combined
score. -/
def find_next_hop (P : CycleParams) (nodes : List SimNode) (node_id : ℕ)
    (packet : SimPacket) : Option ℕ :=
  let current := getNode nodes node_id
  let neighbors := current.neighbors.filter
    (fun n => !((getNode nodes n).role == NodeRole.Disabled))
  match nearest_egress nodes current.x current.y with
  | none => none
  | some target =>
    let max_dist := compute_max_distance P nodes neighbors target
    (neighbors.foldl
      (fun best n_id =>
        let score := score_neighbor P (getNode nodes n_id) target max_dist packet
        match best with
        | none => some (n_id, score)
        | some bs => if bs.2 < score then some (n_id, score) else some bs)
      none).map Prod.fst

-- ===========================================================================
-- Adapter (src/adapter.rs)
-- ===========================================================================

/-- Arena tier to core tier (`adapter::to_core_tier`). -/
def to_core_tier : MarketTier → Core.MarketTier
  | .L0 => Core.MarketTier.L0
  | .L1 => Core.MarketTier.L1
  | .L2 => Core.MarketTier.L2
  | .L3 => Core.MarketTier.L3

/-- Node name used by the adapter when invoking the core fee distributor
(`format!("node-{}", id)`). -/
def nodeName (id : ℕ) : CoreFee.NodeId := "node-" ++ toString id

/-- `adapter::distribute_fee_via_core` (`adapter.rs` lines 144-179): fees
`≤ 0` short-circuit to `(0, 0)`; otherwise the core distributor is invoked
with every transit node carrying a relayed-byte count of **zero**, and the
result is reported as the egress amount plus the first (hence, by equal
split, every) per-transit amount.  The f64/Decimal boundary conversions are
value-preserving at the magnitudes involved and are modelled as the
identity. -/
def distribute_fee_via_core (total_fee : ℚ) (egress_id : ℕ)
    (transit_ids : List ℕ) : ℚ × ℚ :=
  if total_fee ≤ 0 then (0, 0)
  else
    let transit_nodes := transit_ids.map (fun i => (nodeName i, (0 : ℕ)))
    match CoreFee.FeeDistributor.default.distribute_fee total_fee
        (nodeName egress_id) transit_nodes with
    | Except.ok dist =>
      let egress_amt := dist.egress_payment.amount
      let per_transit :=
        match dist.transit_payments with
        | [] => 0
        | p :: _ => p.amount
      (egress_amt, per_transit)
    | Except.error _ => (0, 0)

/-- `adapter::calculate_fee_via_core` — fee from the core governor's last
parameters for a given tier, base rate and packet value. -/
def calculate_fee_via_core (governor : Core.GovernorPid) (tier : MarketTier)
    (base_rate packet_value : ℚ) : ℚ :=
  governor.calculate_fee governor.last_params (to_core_tier tier) base_rate packet_value

/-- `adapter::verify_settlement_via_core` — parallel Decimal conservation
cross-check; returns `(balanced, tripped)` and the updated law. -/
def verify_settlement_via_core (law : CoreConservation.ConservationLaw)
    (initial settled fees demurrage : ℚ) :
    (Bool × Bool) × CoreConservation.ConservationLaw :=
  let r := law.verify_settlement initial settled fees demurrage
  let balanced := match r.1 with
    | Except.ok _ => true
    | Except.error _ => false
  ((balanced, r.2.is_circuit_breaker_tripped), r.2)

-- ===========================================================================
-- Node execution cycle (src/simulation.rs, execute_node_cycle)
-- ===========================================================================

/-- The slice of `ArenaSimulation` state read or written by
`execute_node_cycle` (`simulation.rs` lines 16-54 and 336-625).  Node
buffers are an association list whose entry order models the iteration
order of the backing `HashMap` — the Rust standard-library `HashMap` leaves
this order unspecified (its hasher is randomly seeded per instance). -/
structure CState where
  nodes : List SimNode
  node_buffers : List (ℕ × List SimPacket)
  message_queue : List SimPacket
  total_output : ℚ
  total_burned : ℚ
  total_fees : ℚ
  total_rewards_egress : ℚ
  total_rewards_transit : ℚ
  settlement_count : ℕ
  revert_count : ℕ
  total_settlement_hops : ℕ
  total_settlement_time : ℕ
  dissolved_count : ℕ
  volatility : ℚ
  current_fee_rate : ℚ
  verification_complexity : ℕ
  conservation_law : ArenaConservation.ConservationLaw
  core_conservation : CoreConservation.ConservationLaw
  core_pid : Core.GovernorPid
deriving DecidableEq, Repr

/-- Buffer lookup by key (`node_buffers.get_mut(&node_id)`). -/
def bufLookup (bs : List (ℕ × List SimPacket)) (k : ℕ) : Option (List SimPacket) :=
  (bs.find? (fun kv => kv.1 == k)).map Prod.snd

/-- Replace the buffer stored under key `k` (in place, preserving entry
order). -/
def bufSet (bs : List (ℕ × List SimPacket)) (k : ℕ) (v : List SimPacket) :
    List (ℕ × List SimPacket) :=
  bs.map (fun kv => if kv.1 == k then (k, v) else kv)

/-- Decrement `nodes[i].current_buffer_count` (saturating). -/
def decBufferCount (nodes : List SimNode) (i : ℕ) : List SimNode :=
  updNode nodes i (fun n => { n with current_buffer_count := n.current_buffer_count - 1 })

/-- Demurrage step (`simulation.rs` lines 361-365): multiply the packet
value by the per-tier decay factor `e^{-λ}` (abstracted in `CycleParams`)
and accumulate the burned delta. -/
def demurrageStep (P : CycleParams) (s : CState) (p0 : SimPacket) :
    SimPacket × CState :=
  let p1 := { p0 with current_value := p0.current_value * P.demurrage_factor p0.tier }
  (p1, { s with total_burned := s.total_burned + (p0.current_value - p1.current_value) })

/-- Surge-pricing step (`simulation.rs` lines 367-376): packets orbiting
more than 10 ticks burn `current_value · min(0.01·(orbit_ticks−10), 0.5)`. -/
def surgeStep (current_tick : ℕ) (s : CState) (p1 : SimPacket) :
    SimPacket × CState :=
  match p1.orbit_start_tick with
  | some orbit_start =>
    let orbit_ticks := current_tick - orbit_start
    if 10 < orbit_ticks then
      let surge_burn := p1.current_value * min (((orbit_ticks - 10 : ℕ) : ℚ) * 0.01) 0.5
      ({ p1 with current_value := p1.current_value - surge_burn },
       { s with total_burned := s.total_burned + surge_burn })
    else (p1, s)
  | none => (p1, s)

/-- Gravity-dissolution branch (`simulation.rs` lines 390-432): for a
`Held` packet older than the dissolution threshold with positive value,
qualify all non-disabled nodes, treat the packet's route history as the
shard-holder list, and on success credit each recipient's `inventory_fiat`
and consume the packet.  Returns `none` when the branch does not fire. -/
def dissolveBranch (current_tick : ℕ) (node_id : ℕ) (s : CState)
    (p2 : SimPacket) : Option (CState × Option SimPacket) :=
  if p2.status = PacketStatus.Held then
    let total_age := current_tick - p2.spawn_tick
    if Dissolution.is_eligible_ticks total_age ∧ 0 < p2.current_value then
      let qualifications := (s.nodes.filter
          (fun n => !(n.role == NodeRole.Disabled))).map (fun n =>
        Dissolution.GravityQualification.mk n.id n.upi_active n.ngauge_running
          n.kyc_valid (!(n.role == NodeRole.Disabled))
          (decide ((10 : ℚ) ≤ n.bandwidth))
          (decide (0 < n.current_buffer_count) || decide ((0 : ℚ) < n.total_fees_earned)))
      match Dissolution.dissolve p2.current_value qualifications p2.route_history with
      | Except.ok result =>
        let nodes1 := result.distributions.foldl
          (fun ns d => updNode ns d.node_id
            (fun n => { n with inventory_fiat := n.inventory_fiat + d.amount }))
          s.nodes
        some ({ s with
                  nodes := decBufferCount nodes1 node_id,
                  total_output := s.total_output + p2.current_value,
                  dissolved_count := s.dissolved_count + 1 }, none)
      | Except.error _ => none
    else none
  else none

/-- Orbit-timeout branch (`simulation.rs` lines 434-457): a `Held` packet
gets its `orbit_start_tick` initialised if unset; when the orbit time
exceeds the per-tier limit (5500 for L3, `ttl_ticks/2` otherwise) the
packet is refunded and consumed, else the (possibly updated) packet flows
on. -/
def orbitBranch (current_tick : ℕ) (node_id : ℕ) (s : CState)
    (p2 : SimPacket) : Sum (CState × Option SimPacket) SimPacket :=
  if p2.status = PacketStatus.Held then
    let ost := p2.orbit_start_tick.getD current_tick
    let p3 := { p2 with orbit_start_tick := some ost }
    let orbit_ticks := current_tick - ost
    let orbit_limit :=
      if p3.tier = MarketTier.L3 then Dissolution.DISSOLUTION_TIMEOUT_TICKS + 500
      else p3.tier.ttl_ticks / 2
    if orbit_limit < orbit_ticks then
      Sum.inl ({ s with total_output := s.total_output + p3.current_value,
                        revert_count := s.revert_count + 1,
                        nodes := decBufferCount s.nodes node_id }, none)
    else Sum.inr p3
  else Sum.inr p2

/-- Egress-settlement branch (`simulation.rs` lines 470-561): when the
egress holds enough crypto inventory, compute the governor fee capped to
the packet value, apply the strategy modifier and the remaining fee budget,
distribute the capped fee via the core 80/20 splitter (velocity bonus
applied to payouts), settle the packet, and cross-check both conservation
laws.  Returns `none` when the branch does not fire (the packet then flows
on to the hop-limit and routing logic). -/
def settleBranch (current_tick : ℕ) (node_id : ℕ) (node_role : NodeRole)
    (node_strategy : NodeStrategy) (s : CState) (p3 : SimPacket) :
    Option (CState × Option SimPacket) :=
  if node_role = NodeRole.Egress ∧ 0 < p3.current_value then
    if p3.current_value ≤ (getNode s.nodes node_id).inventory_crypto then
      let total_fee := min
        (calculate_fee_via_core s.core_pid p3.tier s.current_fee_rate p3.original_value)
        p3.current_value
      let p4 := { p3 with route_history := p3.route_history ++ [node_id] }
      let velocity_bonus : ℚ :=
        if p4.hops ≤ 3 then 1.2 else if p4.hops ≤ 6 then 1 else 0.8
      let strategy_fee_mod : ℚ :=
        if node_strategy = NodeStrategy.Greedy then 1.5 else 1
      let adjusted_fee := total_fee * strategy_fee_mod
      let remaining_budget := max (p4.fee_budget - p4.fees_consumed) 0
      let capped_fee := min (min adjusted_fee p4.current_value) remaining_budget
      let p5 := { p4 with fees_consumed := p4.fees_consumed + capped_fee }
      let transit_node_ids := p5.route_history.filter (fun n =>
        !(n == node_id) &&
          (((s.nodes.get? n).map (fun node => !(node.role == NodeRole.Ingress))).getD false))
      let dist := distribute_fee_via_core capped_fee node_id transit_node_ids
      let egress_reward := dist.1 * velocity_bonus
      let nodes1 := updNode s.nodes node_id
        (fun n => { n with total_fees_earned := n.total_fees_earned + egress_reward })
      let nodes2 :=
        if transit_node_ids.isEmpty then nodes1
        else
          let per_transit := dist.2 * velocity_bonus
          transit_node_ids.foldl
            (fun ns tn => updNode ns tn (fun n =>
              { n with total_fees_earned := n.total_fees_earned + per_transit }))
            nodes1
      let settlement_val := max (p5.current_value - capped_fee) 0
      let nodes3 := updNode nodes2 node_id
        (fun n => { n with inventory_crypto := n.inventory_crypto - p5.current_value })
      let nodes4 := decBufferCount nodes3 node_id
      let demurrage_burned := p5.original_value - p5.current_value - p5.fees_consumed
      let law1 := (s.conservation_law.verify_settlement p5.original_value
        settlement_val p5.fees_consumed (max demurrage_burned 0)).2
      let core_law1 := (verify_settlement_via_core s.core_conservation
        p5.original_value settlement_val p5.fees_consumed (max demurrage_burned 0)).2
      some ({ s with
                nodes := nodes4,
                total_rewards_egress := s.total_rewards_egress + dist.1,
                total_rewards_transit := s.total_rewards_transit + (capped_fee - dist.1),
                total_output := s.total_output + settlement_val,
                total_fees := s.total_fees + capped_fee,
                settlement_count := s.settlement_count + 1,
                total_settlement_hops := s.total_settlement_hops + p5.hops,
                total_settlement_time :=
                  s.total_settlement_time + (current_tick - p5.arrival_tick),
                conservation_law := law1,
                core_conservation := core_law1 }, none)
    else none
  else none

/-- Marks a packet `Held`, initialising `orbit_start_tick` if unset (the
shared tail of the hop-limit and no-route paths). -/
def holdPacket (current_tick : ℕ) (p : SimPacket) : SimPacket :=
  { p with status := PacketStatus.Held,
           orbit_start_tick :=
             match p.orbit_start_tick with
             | none => some current_tick
             | some t => some t }

/-- Routing branch (`simulation.rs` lines 575-620): on a found next hop,
charge the capped transit fee, credit the target node, stamp the packet
`InTransit` with its arrival tick (`1 + ⌊distance⌋ + verification
complexity` later), and move it to the in-transit queue; otherwise the
packet enters orbit and stays buffered. -/
def routeBranch (P : CycleParams) (current_tick : ℕ) (node_id : ℕ)
    (s : CState) (p3 : SimPacket) : CState × Option SimPacket :=
  match find_next_hop P s.nodes node_id p3 with
  | some target =>
    let transit_fee := (getNode s.nodes target).transit_fee * p3.current_value
    let remaining_budget := max (p3.fee_budget - p3.fees_consumed) 0
    let capped_transit_fee :=
      min (min transit_fee (p3.current_value * p3.tier.fee_cap)) remaining_budget
    let tnode := getNode s.nodes target
    let cnode := getNode s.nodes node_id
    let distance := P.sqrtQ (distance_sq cnode.x cnode.y tnode.x tnode.y)
    let base_latency := 1 + (⌊distance⌋).toNat
    let p4 := { p3 with
                  current_value := p3.current_value - capped_transit_fee,
                  fees_consumed := p3.fees_consumed + capped_transit_fee,
                  fee_schedule := p3.fee_schedule ++ [capped_transit_fee],
                  status := PacketStatus.InTransit,
                  target_node := some target,
                  hops := p3.hops + 1,
                  route_history := p3.route_history ++ [node_id],
                  orbit_start_tick := none,
                  arrival_tick := current_tick + base_latency + s.verification_complexity }
    let nodes1 := updNode s.nodes target
      (fun n => { n with total_fees_earned := n.total_fees_earned + capped_transit_fee })
    let nodes2 := decBufferCount nodes1 node_id
    ({ s with
         nodes := nodes2,
         total_fees := s.total_fees + capped_transit_fee,
         message_queue := s.message_queue ++ [p4] }, none)
  | none => (s, some (holdPacket current_tick p3))

/-- Processes a single packet taken out of the buffer of `node_id`, exactly
following the body of the `while` loop in `execute_node_cycle`
(`simulation.rs` lines 358-620): demurrage, surge burn, TTL expiry, gravity
dissolution, orbit timeout, risk-averse hold, egress settlement, hop limit,
and routing.  Returns the updated state together with `some packet` when
the packet is re-inserted into this node's buffer and `none` when it was
consumed (settled, expired, refunded, dissolved) or moved to the in-transit
queue. -/
def processPacket (P : CycleParams) (current_tick : ℕ) (node_id : ℕ)
    (node_role : NodeRole) (node_strategy : NodeStrategy)
    (s : CState) (p0 : SimPacket) : CState × Option SimPacket :=
  let d := demurrageStep P s p0
  let sg := surgeStep current_tick d.2 d.1
  let p2 := sg.1
  let s2 := sg.2
  if 0 < p2.ttl ∧ p2.ttl ≤ current_tick then
    ({ s2 with total_output := s2.total_output + p2.current_value,
               revert_count := s2.revert_count + 1,
               nodes := decBufferCount s2.nodes node_id }, none)
  else
    match dissolveBranch current_tick node_id s2 p2 with
    | some out => out
    | none =>
      match orbitBranch current_tick node_id s2 p2 with
      | Sum.inl out => out
      | Sum.inr p3 =>
        if node_strategy = NodeStrategy.RiskAverse ∧ (0.1 : ℚ) < s2.volatility ∧
            node_role ≠ NodeRole.Egress then
          (s2, some p3)
        else
          match settleBranch current_tick node_id node_role node_strategy s2 p3 with
          | some out => out
          | none =>
            if p3.hop_limit < p3.hops then
              (s2, some (holdPacket current_tick p3))
            else
              routeBranch P current_tick node_id s2 p3

/-- Processes a node's buffer front to back (the `while j < buf.len()` loop
with `remove(j)` / `insert(j)`), returning the final state and the packets
re-inserted, in order. -/
def processBuffer (P : CycleParams) (current_tick : ℕ) (node_id : ℕ)
    (node_role : NodeRole) (node_strategy : NodeStrategy) :
    CState → List SimPacket → CState × List SimPacket
  | s, [] => (s, [])
  | s, p :: rest =>
    match processPacket P current_tick node_id node_role node_strategy s p with
    | (s1, some kept) =>
      let r := processBuffer P current_tick node_id node_role node_strategy s1 rest
      (r.1, kept :: r.2)
    | (s1, none) => processBuffer P current_tick node_id node_role node_strategy s1 rest

/-- Processes one node of the cycle: skip disabled nodes and nodes without
a buffer entry; otherwise run the buffer and store back the kept packets. -/
def execNode (P : CycleParams) (current_tick : ℕ) (s : CState) (node_id : ℕ) : CState :=
  let node_role := (getNode s.nodes node_id).role
  let node_strategy := (getNode s.nodes node_id).strategy
  if node_role = NodeRole.Disabled then s
  else
    match bufLookup s.node_buffers node_id with
    | none => s
    | some buf =>
      let r := processBuffer P current_tick node_id node_role node_strategy s buf
      { r.1 with node_buffers := bufSet r.1.node_buffers node_id r.2 }

/-- `execute_node_cycle` (`simulation.rs` lines 336-625), parameterised by
`key_order`, the order in which `self.node_buffers.keys()` enumerates the
buffer keys.  The Rust implementation draws this order from a
randomly-seeded `std::collections::HashMap`, so it is not a function of the
engine state; the embedding therefore takes it as an explicit argument. -/
def execute_node_cycle (P : CycleParams) (current_tick : ℕ)
    (key_order : List ℕ) (s : CState) : CState :=
  key_order.foldl (execNode P current_tick) s

end Arena

-- ===========================================================================
-- Invariants (claim C8)
-- ===========================================================================

namespace Arena

/-- The per-packet value/fee bounds of spec §8 property 2:
`0 ≤ current_value ≤ original_value` and `fees_consumed ≤ fee_budget + ε`. -/
def PacketInv (eps : ℚ) (p : SimPacket) : Prop :=
  0 ≤ p.current_value ∧ p.current_value ≤ p.original_value ∧
    p.fees_consumed ≤ p.fee_budget + eps

/-- Every live packet of a cycle state (all node buffers and the global
in-transit queue) satisfies the value/fee bounds. -/
def StateInv (eps : ℚ) (s : CState) : Prop :=
  (∀ kv ∈ s.node_buffers, ∀ p ∈ kv.2, PacketInv eps p) ∧
    (∀ p ∈ s.message_queue, PacketInv eps p)

/-- Soundness of the abstracted demurrage factors: each models `e^{-λ}` for
a positive `λ`, hence lies in `(0, 1]`. -/
def GoodParams (P : CycleParams) : Prop :=
  ∀ t : MarketTier, 0 < P.demurrage_factor t ∧ P.demurrage_factor t ≤ 1

/-- Non-negative per-node transit-fee rates (spec §3: `transit_fee ∈
[0,1]`; the engine constructor only creates non-negative rates). -/
def NodesOk (s : CState) : Prop :=
  ∀ n ∈ s.nodes, 0 ≤ n.transit_fee

end Arena

-- ===========================================================================
-- Concrete instances used by the evaluation theorems
-- ===========================================================================

/-- Metrics with a 1% gold-price deviation and an economic health score of
3.96 (so that the base adjustment agrees between the code's brackets and
the spec's brackets): current price `84.84`, target `84`, volatility `1`,
zero volume and liquidity. -/
def c1Metrics : Core.NetworkMetrics :=
  { current_gold_price_usd := 8484/100
    target_gold_price_usd := 84
    market_volatility := 1
    transaction_volume := 0
    liquidity_depth := 0
    network_velocity := 1
    active_packets_by_tier := Core.TierCounts.default
    in_transit_float := 0 }

/-- Metrics at the exact target price with zero volatility and saturated
volume and liquidity components: economic health score exactly 10. -/
def c5Metrics : Core.NetworkMetrics :=
  { current_gold_price_usd := 84
    target_gold_price_usd := 84
    market_volatility := 0
    transaction_volume := 10000000
    liquidity_depth := 10000000
    network_velocity := 1
    active_packets_by_tier := Core.TierCounts.default
    in_transit_float := 0 }

/-- A transit node for the order-dependence scenario of claim C4: all nodes
sit at the origin (so every Euclidean distance in play is `0`), bandwidth
is at the normalisation cap, and only the neighbor list, transit-fee rate
and buffer count vary. -/
def c4Transit (i : ℕ) (nbrs : List ℕ) (fee : ℚ) (bufc : ℕ) : Arena.SimNode :=
  { Arena.defaultSimNode with
      id := i
      role := Arena.NodeRole.Transit
      neighbors := nbrs
      transit_fee := fee
      bandwidth := 1000
      current_buffer_count := bufc }

/-- The liquid egress node of the C4 scenario (routing target). -/
def c4Egress : Arena.SimNode :=
  { Arena.defaultSimNode with
      id := 3
      role := Arena.NodeRole.Egress
      inventory_crypto := 100 }

/-- A freshly minted L0 packet of value 100 sitting at `origin` (fee budget
`tier.fee_cap * 100 = 5`, no TTL). -/
def c4Packet (i : ℕ) (origin : ℕ) : Arena.SimPacket :=
  { id := i, original_value := 100, current_value := 100, arrival_tick := 0,
    status := Arena.PacketStatus.Minted, origin_node := origin, target_node := none,
    hops := 0, route_history := [origin], orbit_start_tick := none,
    tier := Arena.MarketTier.L0, ttl := 0, hop_limit := 10, fee_budget := 5,
    fees_consumed := 0, fee_schedule := [], spawn_tick := 0 }

/-- The C4 scenario state: node 0 (transit fee 0.0001, neighbors `[2]`) and
node 1 (neighbors `[0, 2]`) each hold one packet; node 2 (transit fee
0.0002) is an empty transit node; node 3 is a liquid egress.  Node 1's
routing choice between nodes 0 and 2 hinges on node 0's buffer count,
which node 0's own processing decrements — so the buffer-key iteration
order decides which transit fee is charged. -/
def c4State : Arena.CState :=
  { nodes := [c4Transit 0 [2] (1/10000) 1, c4Transit 1 [0, 2] (3/10000) 1,
              c4Transit 2 [] (2/10000) 0, c4Egress],
    node_buffers := [(0, [c4Packet 1 0]), (1, [c4Packet 2 1])],
    message_queue := [], total_output := 0, total_burned := 0, total_fees := 0,
    total_rewards_egress := 0, total_rewards_transit := 0, settlement_count := 0,
    revert_count := 0, total_settlement_hops := 0, total_settlement_time := 0,
    dissolved_count := 0, volatility := 0, current_fee_rate := 1/1000,
    verification_complexity := 1,
    conservation_law := ArenaConservation.ConservationLaw.new (1/1000),
    core_conservation := CoreConservation.ConservationLaw.new (1/1000),
    core_pid := Core.GovernorPid.new }

/-- Cycle parameters for the C4 scenario: every square root taken in the
scenario is `sqrt 0` (all nodes share a position), where `sqrt 0 = 0`
exactly; the demurrage factor `9999/10000` stands in for `e^{-λ}` (the
order-dependence established below holds for any positive factor). -/
def c4Params : Arena.CycleParams :=
  { sqrtQ := fun _ => 0, demurrage_factor := fun _ => 9999/10000 }

/-- A small state used to instantiate the C8 invariant theorem: one transit
node holding one packet. -/
def c8State : Arena.CState :=
  { c4State with
      nodes := [c4Transit 0 [] (1/10000) 1],
      node_buffers := [(0, [c4Packet 1 0])] }

/-- Demurrage factors for the C8 witness (all `1/2`, inside `(0, 1]`). -/
def c8Params : Arena.CycleParams :=
  { sqrtQ := fun _ => 0, demurrage_factor := fun _ => 1/2 }

/-- The equal transit share when a fee of `1` is split among three zero-byte
transit nodes: the Decimal division `0.2 / 3`, which rounds to 28
fractional digits (`0.0666…67`). -/
def c3PerNode : ℚ := decDiv (1 * (0.20 : ℚ)) 3

-- ===========================================================================
-- Theorems
-- ===========================================================================

-- Rational arithmetic in Lean core is `@[extern]`-irreducible by default,
-- which blocks `decide`-style evaluation of the embedded definitions; the
-- operations are restored to their ordinary (sound) reducibility here so
-- concrete runs of the model evaluate inside proofs.
set_option allowUnsafeReducibility true

attribute [local semireducible] Rat.mul Rat.add Rat.sub Rat.neg Rat.inv Rat.div
  Rat.ofScientific Rat.normalize Rat.floor

set_option maxRecDepth 4000

/-- Claim C1 — the claim states that `recalculate` produces
`clamp(base_adj + 0.5·e + 0.1·I + 0.05·D, ±0.02)` with the integral `I`
clamped to `[-0.1, 0.1]` after each update and `D = e − e_prev` for
`e_prev` the previous error.  The code (`pid.rs` lines 111-112) never
clamps the integral and computes the derivative against the previous
**recommended fee adjustment**, not the previous error.  Evaluating two
identical control cycles on `c1Metrics` (error `e = 0.01`, health `3.96`,
so the base adjustment is `+0.005` under both the code's brackets and the
spec's): the code's second adjustment is `0.011925`, while the claim's
formula (`specPidStep`, integral clamped, `D = e − e_prev = 0`) yields
`0.012`. -/
theorem c1_recalculate_no_antiwindup_divergence :
    (((Core.GovernorPid.new.recalculate c1Metrics).2.recalculate c1Metrics).1.recommended_fee_adjustment
        = 477/40000) ∧
    Core.GovernorPid.new.score_to_fee_adjustment
        (Core.GovernorPid.new.calculate_economic_health_score c1Metrics) = 1/200 ∧
    (specPidStep (specPidStep (0, 0) (1/200)
          (Core.GovernorPid.new.gold_deviation c1Metrics)).1
        (1/200) (Core.GovernorPid.new.gold_deviation c1Metrics)).2 = 3/250 ∧
    (477/40000 : ℚ) ≠ 3/250 := by
  decide

/-- Claim C5 — the claim states the base fee adjustment is `-0.008` when
the health score `H ≥ 8.5` (with `H ∈ [0,10]`).  The code's
`score_to_fee_adjustment` compares against `85, 75, 65, 55, 50, 40`
(`pid.rs` lines 159-164), a 0-100 scale, while
`calculate_economic_health_score` produces the 0-10 scale (at `c5Metrics`
it is exactly `10`): the code therefore returns `+0.005` where the claim
(and the twin f64 implementation, `governor.rs` lines 218-233, whose
comment attributes the `8.5`-scale brackets to core) requires `-0.008`. -/
theorem c5_health_bracket_scale_bug :
    Core.GovernorPid.new.calculate_economic_health_score c5Metrics = 10 ∧
    Core.GovernorPid.new.score_to_fee_adjustment 10 = 1/200 ∧
    ((1/200 : ℚ) ≠ -(1/125)) := by
  decide

/-- Claim C4 — the claim states that the per-node execution order inside a
tick is a deterministic function of the engine state, not of map iteration
order.  `execute_node_cycle` iterates `node_buffers.keys()` of a
randomly-seeded `std::collections::HashMap` (`simulation.rs` line 343);
on `c4State` the two enumeration orders of the same two-entry buffer map
charge different transit fees (`0.029997` versus `0.039996` gold-grams),
because node 1's routing score for node 0 depends on node 0's buffer
count, which node 0's own processing decrements. -/
theorem c4_execute_node_cycle_order_dependent :
    ([0, 1] : List ℕ).Perm [1, 0] ∧
    (Arena.execute_node_cycle c4Params 1 [0, 1] c4State).total_fees ≠
      (Arena.execute_node_cycle c4Params 1 [1, 0] c4State).total_fees := by
  constructor
  · decide
  · decide

/-- Claim C3 counterexample — distributing the fee `F = 1` to three
zero-byte transit nodes: the egress payment is exactly `0.8` (no rounding
remainder is ever reassigned to it) and the equal transit shares are each
the Decimal-rounded `0.2/3`, so the payments sum to
`1.0000000000000000000000000001 ≠ F`. -/
theorem c3_exact_sum_counterexample :
    CoreFee.FeeDistributor.default.distribute_fee 1 "egress"
        [("relay-a", 0), ("relay-b", 0), ("relay-c", 0)] =
      Except.ok
        { total_fee := 1
          egress_payment := { node_id := "egress", amount := 4/5 }
          transit_payments :=
            [{ node_id := "relay-a", amount := c3PerNode },
             { node_id := "relay-b", amount := c3PerNode },
             { node_id := "relay-c", amount := c3PerNode }] } ∧
    (4/5 : ℚ) + (c3PerNode + c3PerNode + c3PerNode) ≠ 1 := by
  decide

/-- Claim C3 amended — for the default 80/20 distributor: a zero fee is the
`ZeroFee` error; an empty transit list sends the whole fee to the egress
with no transit payments; otherwise the egress receives **exactly**
`F · 0.80` (no rounding remainder is reassigned to it) and the transit
pool `F · 0.20` is split equally (Decimal-division-rounded) when the total
byte count is zero, else pro rata by bytes, each payment the
Decimal-rounded product of the pool with the Decimal quotient
`bytes / total_bytes` — so the payments sum to `F` only up to the rounding
of those divisions and products. -/
theorem c3_distribute_fee_amended (F : ℚ) (e : CoreFee.NodeId)
    (ts : List (CoreFee.NodeId × ℕ)) :
    (F = 0 →
      CoreFee.FeeDistributor.default.distribute_fee F e ts =
        Except.error CoreFee.FeeError.zeroFee) ∧
    (F ≠ 0 → ts = [] →
      CoreFee.FeeDistributor.default.distribute_fee F e ts =
        Except.ok
          { total_fee := F
            egress_payment := { node_id := e, amount := F }
            transit_payments := [] }) ∧
    (F ≠ 0 → ts ≠ [] →
      CoreFee.FeeDistributor.default.distribute_fee F e ts =
        Except.ok
          { total_fee := F
            egress_payment := { node_id := e, amount := F * 0.80 }
            transit_payments :=
              if CoreFee.totalBytes ts = 0 then
                ts.map (fun kv =>
                  CoreFee.NodePayment.mk kv.1 (decDiv (F * 0.20) (ts.length : ℚ)))
              else
                ts.map (fun kv =>
                  CoreFee.NodePayment.mk kv.1
                    (decMul (F * 0.20)
                      (decDiv (kv.2 : ℚ) ((CoreFee.totalBytes ts : ℕ) : ℚ)))) }) := by
  refine ⟨fun h => ?_, fun h h0 => ?_, fun h h0 => ?_⟩
  · simp [CoreFee.FeeDistributor.distribute_fee, h]
  · subst h0
    simp [CoreFee.FeeDistributor.distribute_fee, h]
  · simp [CoreFee.FeeDistributor.distribute_fee, h, h0,
      CoreFee.FeeDistributor.default]

/-- Arena fee caps lie in `[0, 1]`. -/
theorem fee_cap_bounds (t : Arena.MarketTier) :
    0 ≤ t.fee_cap ∧ t.fee_cap ≤ 1 := by
  cases t <;> constructor <;> norm_num [Arena.MarketTier.fee_cap]

/-- Scaling a packet's value by a factor in `(0, 1]` preserves the packet
bounds. -/
theorem packetInv_scale {eps f : ℚ} {p : Arena.SimPacket}
    (hf0 : 0 ≤ f) (hf1 : f ≤ 1) (hp : Arena.PacketInv eps p) :
    Arena.PacketInv eps { p with current_value := p.current_value * f } := by
  obtain ⟨h0, h1, h2⟩ := hp
  refine ⟨mul_nonneg h0 hf0, ?_, h2⟩
  calc p.current_value * f ≤ p.current_value * 1 :=
        mul_le_mul_of_nonneg_left hf1 h0
    _ = p.current_value := mul_one _
    _ ≤ p.original_value := h1

/-- The demurrage step preserves the packet bounds. -/
theorem packetInv_demurrageStep {eps : ℚ} (P : Arena.CycleParams)
    (s : Arena.CState) {p : Arena.SimPacket}
    (hP : Arena.GoodParams P) (hp : Arena.PacketInv eps p) :
    Arena.PacketInv eps (Arena.demurrageStep P s p).1 := by
  exact packetInv_scale (le_of_lt (hP p.tier).1) (hP p.tier).2 hp

/-- The demurrage step leaves everything but `total_burned` (and the packet
value) unchanged. -/
theorem demurrageStep_frame (P : Arena.CycleParams) (s : Arena.CState)
    (p : Arena.SimPacket) :
    (Arena.demurrageStep P s p).2.nodes = s.nodes ∧
    (Arena.demurrageStep P s p).2.node_buffers = s.node_buffers ∧
    (Arena.demurrageStep P s p).2.message_queue = s.message_queue ∧
    (Arena.demurrageStep P s p).2.volatility = s.volatility := by
  exact ⟨rfl, rfl, rfl, rfl⟩

/-- The surge step preserves the packet bounds. -/
theorem packetInv_surgeStep {eps : ℚ} (current_tick : ℕ) (s : Arena.CState)
    {p : Arena.SimPacket} (hp : Arena.PacketInv eps p) :
    Arena.PacketInv eps (Arena.surgeStep current_tick s p).1 := by
  obtain ⟨h0, h1, h2⟩ := hp
  unfold Arena.surgeStep
  cases hob : p.orbit_start_tick with
  | none => exact ⟨h0, h1, h2⟩
  | some orbit_start =>
    simp only
    split_ifs with ht
    · have hm0 : 0 ≤ min (((current_tick - orbit_start - 10 : ℕ) : ℚ) * 0.01) 0.5 := by
        refine le_min ?_ (by norm_num)
        positivity
      have hm1 : min (((current_tick - orbit_start - 10 : ℕ) : ℚ) * 0.01) 0.5 ≤ 1 :=
        le_trans (min_le_right _ _) (by norm_num)
      refine ⟨?_, ?_, h2⟩
      · have : p.current_value * min (((current_tick - orbit_start - 10 : ℕ) : ℚ) * 0.01) 0.5
            ≤ p.current_value * 1 := mul_le_mul_of_nonneg_left hm1 h0
        simp only [mul_one] at this
        linarith
      · have : 0 ≤ p.current_value * min (((current_tick - orbit_start - 10 : ℕ) : ℚ) * 0.01) 0.5 :=
          mul_nonneg h0 hm0
        linarith
    · exact ⟨h0, h1, h2⟩

/-- The surge step leaves everything but `total_burned` (and the packet
value) unchanged. -/
theorem surgeStep_frame (current_tick : ℕ) (s : Arena.CState) (p : Arena.SimPacket) :
    (Arena.surgeStep current_tick s p).2.nodes = s.nodes ∧
    (Arena.surgeStep current_tick s p).2.node_buffers = s.node_buffers ∧
    (Arena.surgeStep current_tick s p).2.message_queue = s.message_queue ∧
    (Arena.surgeStep current_tick s p).2.volatility = s.volatility := by
  unfold Arena.surgeStep
  cases p.orbit_start_tick with
  | none => exact ⟨rfl, rfl, rfl, rfl⟩
  | some orbit_start =>
    simp only
    split_ifs <;> exact ⟨rfl, rfl, rfl, rfl⟩

/-- Marking a packet `Held` (hop-limit and no-route paths) preserves the
packet bounds. -/
theorem packetInv_holdPacket {eps : ℚ} (current_tick : ℕ) {p : Arena.SimPacket}
    (hp : Arena.PacketInv eps p) :
    Arena.PacketInv eps (Arena.holdPacket current_tick p) := by
  exact hp

/-- The packet produced by the orbit-timeout branch keeps the packet
bounds. -/
theorem packetInv_orbitBranch {eps : ℚ} (current_tick node_id : ℕ)
    (s : Arena.CState) {p q : Arena.SimPacket}
    (h : Arena.orbitBranch current_tick node_id s p = Sum.inr q)
    (hp : Arena.PacketInv eps p) :
    Arena.PacketInv eps q := by
  unfold Arena.orbitBranch at h
  split_ifs at h
  · simp only [] at h
    split_ifs at h <;> cases h <;> exact hp
  · cases h
    exact hp

/-- Any node lookup out of a list of non-negative-fee nodes has a
non-negative transit fee (the fallback node's fee is `0`). -/
theorem getNode_fee_nonneg (l : List Arena.SimNode)
    (h : ∀ n ∈ l, 0 ≤ n.transit_fee) (i : ℕ) :
    0 ≤ (Arena.getNode l i).transit_fee := by
  unfold Arena.getNode List.getD
  cases hg : l.get? i with
  | none => simp [hg, Arena.defaultSimNode]
  | some x => simpa [hg] using h x (List.get?_mem hg)

/-- Updating one node with a transit-fee-preserving function keeps all
transit fees non-negative. -/
theorem updNode_fee_nonneg (l : List Arena.SimNode) (i : ℕ)
    (f : Arena.SimNode → Arena.SimNode)
    (hf : ∀ n, (f n).transit_fee = n.transit_fee)
    (h : ∀ n ∈ l, 0 ≤ n.transit_fee) :
    ∀ n ∈ Arena.updNode l i f, 0 ≤ n.transit_fee := by
  intro n hn
  rcases List.mem_or_eq_of_mem_set hn with h1 | h1
  · exact h n h1
  · subst h1
    rw [hf]
    exact getNode_fee_nonneg l h i

/-- Decrementing a buffer count keeps all transit fees non-negative. -/
theorem decBufferCount_fee_nonneg (l : List Arena.SimNode) (i : ℕ)
    (h : ∀ n ∈ l, 0 ≤ n.transit_fee) :
    ∀ n ∈ Arena.decBufferCount l i, 0 ≤ n.transit_fee := by
  exact updNode_fee_nonneg l i _ (fun _ => rfl) h

/-- Folding transit-fee-preserving node updates over any list keeps all
transit fees non-negative. -/
theorem foldl_fee_nonneg {α : Type} (F : List Arena.SimNode → α → List Arena.SimNode)
    (hF : ∀ l a, (∀ n ∈ l, 0 ≤ n.transit_fee) → ∀ n ∈ F l a, 0 ≤ n.transit_fee)
    (ds : List α) :
    ∀ l, (∀ n ∈ l, 0 ≤ n.transit_fee) → ∀ n ∈ ds.foldl F l, 0 ≤ n.transit_fee := by
  induction ds with
  | nil => intro l h; exact h
  | cons d rest ih =>
    intro l h
    exact ih _ (hF l d h)

/-- The routed packet produced by the transit-fee charge preserves the
packet bounds, for any non-negative fee rate. -/
theorem packetInv_transit_charge {eps rate : ℚ} {p : Arena.SimPacket}
    (heps : 0 ≤ eps) (hrate : 0 ≤ rate) (hp : Arena.PacketInv eps p)
    (st : Arena.PacketStatus) (tn : Option ℕ) (hcount : ℕ) (rh : List ℕ)
    (obs : Option ℕ) (at2 : ℕ) (fs : List ℚ) :
    Arena.PacketInv eps
      { p with
          current_value := p.current_value -
            min (min (rate * p.current_value) (p.current_value * p.tier.fee_cap))
              (max (p.fee_budget - p.fees_consumed) 0),
          fees_consumed := p.fees_consumed +
            min (min (rate * p.current_value) (p.current_value * p.tier.fee_cap))
              (max (p.fee_budget - p.fees_consumed) 0),
          fee_schedule := fs, status := st, target_node := tn, hops := hcount,
          route_history := rh, orbit_start_tick := obs, arrival_tick := at2 } := by
  obtain ⟨h0, h1, h2⟩ := hp
  obtain ⟨hc0, hc1⟩ := fee_cap_bounds p.tier
  set fee := min (min (rate * p.current_value) (p.current_value * p.tier.fee_cap))
    (max (p.fee_budget - p.fees_consumed) 0) with hfee
  have hfee0 : 0 ≤ fee :=
    le_min (le_min (mul_nonneg hrate h0) (mul_nonneg h0 hc0)) (le_max_right _ 0)
  have hfee_cv : fee ≤ p.current_value := by
    calc fee ≤ p.current_value * p.tier.fee_cap :=
          le_trans (min_le_left _ _) (min_le_right _ _)
      _ ≤ p.current_value * 1 := mul_le_mul_of_nonneg_left hc1 h0
      _ = p.current_value := mul_one _
  have hfee_budget : fee ≤ max (p.fee_budget - p.fees_consumed) 0 := min_le_right _ _
  refine ⟨by simpa using sub_nonneg.mpr hfee_cv, ?_, ?_⟩
  · simp only
    linarith
  · simp only
    rcases le_total (p.fee_budget - p.fees_consumed) 0 with hb | hb
    · rw [max_eq_right hb] at hfee_budget
      linarith
    · rw [max_eq_left hb] at hfee_budget
      linarith

/-- Frame of a successful dissolution branch: node buffers and the
in-transit queue are untouched, the packet is consumed, and transit fees
stay non-negative. -/
theorem dissolveBranch_spec (current_tick node_id : ℕ) (s : Arena.CState)
    (p : Arena.SimPacket) (out : Arena.CState × Option Arena.SimPacket)
    (h : Arena.dissolveBranch current_tick node_id s p = some out)
    (hn : ∀ n ∈ s.nodes, 0 ≤ n.transit_fee) :
    out.1.node_buffers = s.node_buffers ∧
    out.1.message_queue = s.message_queue ∧
    out.2 = none ∧
    ∀ n ∈ out.1.nodes, 0 ≤ n.transit_fee := by
  unfold Arena.dissolveBranch at h
  simp only [] at h
  split_ifs at h <;>
    first
      | cases h
      | (split at h <;> cases h <;>
          (refine ⟨rfl, rfl, rfl, ?_⟩
           refine decBufferCount_fee_nonneg _ _ ?_
           refine foldl_fee_nonneg _ ?_ _ s.nodes hn
           intro l a hh
           exact updNode_fee_nonneg l _ _ (fun _ => rfl) hh))

/-- Frame of a successful settlement branch: node buffers and the
in-transit queue are untouched, the packet is consumed, and transit fees
stay non-negative. -/
theorem settleBranch_spec (current_tick node_id : ℕ) (role : Arena.NodeRole)
    (strat : Arena.NodeStrategy) (s : Arena.CState) (p : Arena.SimPacket)
    (out : Arena.CState × Option Arena.SimPacket)
    (h : Arena.settleBranch current_tick node_id role strat s p = some out)
    (hn : ∀ n ∈ s.nodes, 0 ≤ n.transit_fee) :
    out.1.node_buffers = s.node_buffers ∧
    out.1.message_queue = s.message_queue ∧
    out.2 = none ∧
    ∀ n ∈ out.1.nodes, 0 ≤ n.transit_fee := by
  unfold Arena.settleBranch at h
  simp only [] at h
  split_ifs at h <;> cases h <;>
    (refine ⟨rfl, rfl, rfl, ?_⟩
     refine decBufferCount_fee_nonneg _ _ ?_
     refine updNode_fee_nonneg _ _ _ (fun _ => rfl) ?_
     first
       | exact updNode_fee_nonneg _ _ _ (fun _ => rfl) hn
       | (refine foldl_fee_nonneg _ ?_ _ _
            (updNode_fee_nonneg _ _ _ (fun _ => rfl) hn)
          intro l a hh
          exact updNode_fee_nonneg l _ _ (fun _ => rfl) hh))

/-- Frame of the orbit-timeout refund: node buffers and the in-transit
queue are untouched, the packet is consumed, and transit fees stay
non-negative. -/
theorem orbitBranch_inl_spec (current_tick node_id : ℕ) (s : Arena.CState)
    (p : Arena.SimPacket) (out : Arena.CState × Option Arena.SimPacket)
    (h : Arena.orbitBranch current_tick node_id s p = Sum.inl out)
    (hn : ∀ n ∈ s.nodes, 0 ≤ n.transit_fee) :
    out.1.node_buffers = s.node_buffers ∧
    out.1.message_queue = s.message_queue ∧
    out.2 = none ∧
    ∀ n ∈ out.1.nodes, 0 ≤ n.transit_fee := by
  unfold Arena.orbitBranch at h
  split_ifs at h <;>
    first
      | cases h
      | (simp only [] at h
         split_ifs at h <;> cases h <;>
           exact ⟨rfl, rfl, rfl, decBufferCount_fee_nonneg _ _ hn⟩)

/-- The routing branch: node buffers are untouched, transit fees stay
non-negative, any re-inserted packet keeps the packet bounds, and any
packet on the outgoing in-transit queue was already there or keeps the
packet bounds. -/
theorem routeBranch_spec {eps : ℚ} (P : Arena.CycleParams)
    (current_tick node_id : ℕ) (s : Arena.CState) (p : Arena.SimPacket)
    (heps : 0 ≤ eps) (hn : ∀ n ∈ s.nodes, 0 ≤ n.transit_fee)
    (hp : Arena.PacketInv eps p) :
    (Arena.routeBranch P current_tick node_id s p).1.node_buffers = s.node_buffers ∧
    (∀ n ∈ (Arena.routeBranch P current_tick node_id s p).1.nodes, 0 ≤ n.transit_fee) ∧
    (∀ q, (Arena.routeBranch P current_tick node_id s p).2 = some q →
      Arena.PacketInv eps q) ∧
    (∀ q ∈ (Arena.routeBranch P current_tick node_id s p).1.message_queue,
      q ∈ s.message_queue ∨ Arena.PacketInv eps q) := by
  unfold Arena.routeBranch
  cases hfn : Arena.find_next_hop P s.nodes node_id p with
  | none =>
    refine ⟨rfl, hn, ?_, fun q hq => Or.inl hq⟩
    intro q hq
    cases hq
    exact packetInv_holdPacket current_tick hp
  | some target =>
    refine ⟨rfl, ?_, ?_, ?_⟩
    · exact decBufferCount_fee_nonneg _ _
        (updNode_fee_nonneg _ _ _ (fun _ => rfl) hn)
    · intro q hq
      cases hq
    · intro q hq
      rcases List.mem_append.mp hq with hmem | hmem
      · exact Or.inl hmem
      · rcases List.mem_singleton.mp hmem with rfl
        exact Or.inr (packetInv_transit_charge heps
          (getNode_fee_nonneg s.nodes hn target) hp _ _ _ _ _ _ _)

/-- One packet step of the node cycle: node buffers are untouched, transit
fees stay non-negative, any re-inserted packet keeps the packet bounds, and
any packet on the outgoing in-transit queue was already there or keeps the
packet bounds. -/
theorem processPacket_spec {eps : ℚ} (P : Arena.CycleParams)
    (current_tick node_id : ℕ) (role : Arena.NodeRole)
    (strat : Arena.NodeStrategy) (s : Arena.CState) (p : Arena.SimPacket)
    (heps : 0 ≤ eps) (hP : Arena.GoodParams P)
    (hn : ∀ n ∈ s.nodes, 0 ≤ n.transit_fee) (hp : Arena.PacketInv eps p) :
    (Arena.processPacket P current_tick node_id role strat s p).1.node_buffers
        = s.node_buffers ∧
    (∀ n ∈ (Arena.processPacket P current_tick node_id role strat s p).1.nodes,
        0 ≤ n.transit_fee) ∧
    (∀ q, (Arena.processPacket P current_tick node_id role strat s p).2 = some q →
        Arena.PacketInv eps q) ∧
    (∀ q ∈ (Arena.processPacket P current_tick node_id role strat s p).1.message_queue,
        q ∈ s.message_queue ∨ Arena.PacketInv eps q) := by
  unfold Arena.processPacket
  simp only []
  set s2 := (Arena.surgeStep current_tick (Arena.demurrageStep P s p).2
      (Arena.demurrageStep P s p).1).2 with hs2def
  set p2 := (Arena.surgeStep current_tick (Arena.demurrageStep P s p).2
      (Arena.demurrageStep P s p).1).1 with hp2def
  have hs2n : s2.nodes = s.nodes := by
    rw [hs2def]
    exact ((surgeStep_frame _ _ _).1).trans ((demurrageStep_frame P s p).1)
  have hs2b : s2.node_buffers = s.node_buffers := by
    rw [hs2def]
    exact ((surgeStep_frame _ _ _).2.1).trans ((demurrageStep_frame P s p).2.1)
  have hs2q : s2.message_queue = s.message_queue := by
    rw [hs2def]
    exact ((surgeStep_frame _ _ _).2.2.1).trans ((demurrageStep_frame P s p).2.2.1)
  have hn2 : ∀ n ∈ s2.nodes, 0 ≤ n.transit_fee := by
    rw [hs2n]
    exact hn
  have hp2 : Arena.PacketInv eps p2 := by
    rw [hp2def]
    exact packetInv_surgeStep current_tick _ (packetInv_demurrageStep P s hP hp)
  split
  · refine ⟨hs2b, decBufferCount_fee_nonneg _ _ hn2, ?_, ?_⟩
    · intro q hq
      cases hq
    · intro q hq
      have hq' : q ∈ s2.message_queue := hq
      rw [hs2q] at hq'
      exact Or.inl hq'
  · split
    · rename_i out hdis
      obtain ⟨hb, hq, hk, hns⟩ :=
        dissolveBranch_spec current_tick node_id s2 p2 out hdis hn2
      refine ⟨?_, hns, ?_, ?_⟩
      · show out.1.node_buffers = s.node_buffers
        rw [hb, hs2b]
      · intro q hqq
        have hqq' : out.2 = some q := hqq
        rw [hk] at hqq'
        cases hqq'
      · intro q hqq
        have hqq' : q ∈ out.1.message_queue := hqq
        rw [hq, hs2q] at hqq'
        exact Or.inl hqq'
    · split
      · rename_i out horb
        obtain ⟨hb, hq, hk, hns⟩ :=
          orbitBranch_inl_spec current_tick node_id s2 p2 out horb hn2
        refine ⟨?_, hns, ?_, ?_⟩
        · show out.1.node_buffers = s.node_buffers
          rw [hb, hs2b]
        · intro q hqq
          have hqq' : out.2 = some q := hqq
          rw [hk] at hqq'
          cases hqq'
        · intro q hqq
          have hqq' : q ∈ out.1.message_queue := hqq
          rw [hq, hs2q] at hqq'
          exact Or.inl hqq'
      · rename_i p3 horb
        have hp3 : Arena.PacketInv eps p3 :=
          packetInv_orbitBranch current_tick node_id s2 horb hp2
        split
        · refine ⟨hs2b, hn2, ?_, ?_⟩
          · intro q hqq
            have hqq' : some p3 = some q := hqq
            cases hqq'
            exact hp3
          · intro q hqq
            have hq' : q ∈ s2.message_queue := hqq
            rw [hs2q] at hq'
            exact Or.inl hq'
        · split
          · rename_i out hset
            obtain ⟨hb, hq, hk, hns⟩ :=
              settleBranch_spec current_tick node_id role strat s2 p3 out hset hn2
            refine ⟨?_, hns, ?_, ?_⟩
            · show out.1.node_buffers = s.node_buffers
              rw [hb, hs2b]
            · intro q hqq
              have hqq' : out.2 = some q := hqq
              rw [hk] at hqq'
              cases hqq'
            · intro q hqq
              have hqq' : q ∈ out.1.message_queue := hqq
              rw [hq, hs2q] at hqq'
              exact Or.inl hqq'
          · split
            · refine ⟨hs2b, hn2, ?_, ?_⟩
              · intro q hqq
                have hqq' : some (Arena.holdPacket current_tick p3) = some q := hqq
                cases hqq'
                exact packetInv_holdPacket current_tick hp3
              · intro q hqq
                have hq' : q ∈ s2.message_queue := hqq
                rw [hs2q] at hq'
                exact Or.inl hq'
            · obtain ⟨hb, hns, hk, hq⟩ :=
                routeBranch_spec P current_tick node_id s2 p3 heps hn2 hp3
              refine ⟨?_, hns, hk, ?_⟩
              · rw [hb, hs2b]
              · intro q hqq
                rcases hq q hqq with hmem | hinv
                · rw [hs2q] at hmem
                  exact Or.inl hmem
                · exact Or.inr hinv

/-- Running a whole buffer: node buffers are untouched, transit fees stay
non-negative, every re-inserted packet keeps the packet bounds, and every
packet on the outgoing in-transit queue was already there or keeps the
packet bounds. -/
theorem processBuffer_spec {eps : ℚ} (P : Arena.CycleParams)
    (current_tick node_id : ℕ) (role : Arena.NodeRole)
    (strat : Arena.NodeStrategy) (heps : 0 ≤ eps) (hP : Arena.GoodParams P) :
    ∀ (buf : List Arena.SimPacket) (s : Arena.CState),
      (∀ n ∈ s.nodes, 0 ≤ n.transit_fee) →
      (∀ p ∈ buf, Arena.PacketInv eps p) →
      (Arena.processBuffer P current_tick node_id role strat s buf).1.node_buffers
          = s.node_buffers ∧
      (∀ n ∈ (Arena.processBuffer P current_tick node_id role strat s buf).1.nodes,
          0 ≤ n.transit_fee) ∧
      (∀ q ∈ (Arena.processBuffer P current_tick node_id role strat s buf).2,
          Arena.PacketInv eps q) ∧
      (∀ q ∈ (Arena.processBuffer P current_tick node_id role strat s buf).1.message_queue,
          q ∈ s.message_queue ∨ Arena.PacketInv eps q) := by
  intro buf
  induction buf with
  | nil =>
    intro s hn hb
    refine ⟨rfl, hn, ?_, fun q hq => Or.inl hq⟩
    intro q hq
    cases hq
  | cons p rest ih =>
    intro s hn hb
    obtain ⟨hb1, hn1, hk1, hq1⟩ :=
      processPacket_spec P current_tick node_id role strat s p heps hP hn
        (hb p (List.mem_cons_self p rest))
    have hbrest : ∀ q ∈ rest, Arena.PacketInv eps q :=
      fun q hq => hb q (List.mem_cons_of_mem _ hq)
    unfold Arena.processBuffer
    cases hpp : Arena.processPacket P current_tick node_id role strat s p with
    | mk s1 kept =>
      rw [hpp] at hb1 hn1 hk1 hq1
      obtain ⟨hb2, hn2, hk2, hq2⟩ := ih s1 hn1 hbrest
      cases kept with
      | some k =>
        refine ⟨?_, hn2, ?_, ?_⟩
        · show (Arena.processBuffer P current_tick node_id role strat s1 rest).1.node_buffers
              = s.node_buffers
          rw [hb2]
          exact hb1
        · intro q hq
          rcases List.mem_cons.mp hq with hq | hq
          · subst hq
            exact hk1 q rfl
          · exact hk2 q hq
        · intro q hq
          rcases hq2 q hq with hmem | hinv
          · exact hq1 q hmem
          · exact Or.inr hinv
      | none =>
        refine ⟨?_, hn2, hk2, ?_⟩
        · show (Arena.processBuffer P current_tick node_id role strat s1 rest).1.node_buffers
              = s.node_buffers
          rw [hb2]
          exact hb1
        · intro q hq
          rcases hq2 q hq with hmem | hinv
          · exact hq1 q hmem
          · exact Or.inr hinv

/-- One node of the cycle preserves both the non-negative transit fees and
the per-packet value/fee bounds of every live packet. -/
theorem execNode_spec {eps : ℚ} (P : Arena.CycleParams) (current_tick : ℕ)
    (s : Arena.CState) (node_id : ℕ) (heps : 0 ≤ eps) (hP : Arena.GoodParams P)
    (hn : Arena.NodesOk s) (hs : Arena.StateInv eps s) :
    Arena.NodesOk (Arena.execNode P current_tick s node_id) ∧
    Arena.StateInv eps (Arena.execNode P current_tick s node_id) := by
  simp only [Arena.execNode]
  split_ifs with hdis
  · exact ⟨hn, hs⟩
  · cases hbl : Arena.bufLookup s.node_buffers node_id with
    | none => exact ⟨hn, hs⟩
    | some buf =>
      have hbuf : ∀ p ∈ buf, Arena.PacketInv eps p := by
        unfold Arena.bufLookup at hbl
        rcases Option.map_eq_some'.mp hbl with ⟨kv, hfind, hsnd⟩
        have hmem : kv ∈ s.node_buffers := List.mem_of_find?_eq_some hfind
        intro q hq
        refine hs.1 kv hmem q ?_
        rw [hsnd]
        exact hq
      obtain ⟨hb2, hn2, hk2, hq2⟩ :=
        processBuffer_spec P current_tick node_id
          (Arena.getNode s.nodes node_id).role
          (Arena.getNode s.nodes node_id).strategy heps hP buf s hn hbuf
      refine ⟨hn2, ?_, ?_⟩
      · intro kv hkv q hq
        have hkv' : kv ∈ Arena.bufSet
            (Arena.processBuffer P current_tick node_id
              (Arena.getNode s.nodes node_id).role
              (Arena.getNode s.nodes node_id).strategy s buf).1.node_buffers node_id
            (Arena.processBuffer P current_tick node_id
              (Arena.getNode s.nodes node_id).role
              (Arena.getNode s.nodes node_id).strategy s buf).2 := hkv
        unfold Arena.bufSet at hkv'
        rcases List.mem_map.mp hkv' with ⟨kv0, hkv0, hfkv⟩
        by_cases hkey : kv0.1 == node_id
        · rw [if_pos hkey] at hfkv
          subst hfkv
          exact hk2 q hq
        · rw [if_neg hkey] at hfkv
          subst hfkv
          rw [hb2] at hkv0
          exact hs.1 kv0 hkv0 q hq
      · intro q hq
        have hq' : q ∈ (Arena.processBuffer P current_tick node_id
            (Arena.getNode s.nodes node_id).role
            (Arena.getNode s.nodes node_id).strategy s buf).1.message_queue := hq
        rcases hq2 q hq' with hmem | hinv
        · exact hs.2 q hmem
        · exact hinv

/-- Claim C7 — the pressure quadrant classification, characterised with the
claim's exact priority: Bubble iff `e > 0.18` and velocity `> 1.5`;
Bottleneck iff `e > 0.18` and velocity `≤ 1.5`; Crash iff `e < −0.18`;
then Stagnation iff velocity `< 0.3` and volume `< 10⁵`; then Vacuum iff
liquidity `> 10⁶` and volume `< 10⁵`; otherwise GoldenEra — with the
deviation `e` equal to `0` whenever the target price is `0`. -/
theorem c7_classify_pressure_characterization (g : Core.GovernorPid)
    (m : Core.NetworkMetrics) :
    (g.classify_pressure m = Core.PressureQuadrant.Bubble ↔
      (0.18 : ℚ) < g.gold_deviation m ∧ (1.5 : ℚ) < m.network_velocity) ∧
    (g.classify_pressure m = Core.PressureQuadrant.Bottleneck ↔
      (0.18 : ℚ) < g.gold_deviation m ∧ m.network_velocity ≤ 1.5) ∧
    (g.classify_pressure m = Core.PressureQuadrant.Crash ↔
      g.gold_deviation m < -(0.18 : ℚ)) ∧
    (g.classify_pressure m = Core.PressureQuadrant.Stagnation ↔
      g.gold_deviation m ≤ 0.18 ∧ -(0.18 : ℚ) ≤ g.gold_deviation m ∧
      m.network_velocity < 0.3 ∧ m.transaction_volume < 100000) ∧
    (g.classify_pressure m = Core.PressureQuadrant.Vacuum ↔
      g.gold_deviation m ≤ 0.18 ∧ -(0.18 : ℚ) ≤ g.gold_deviation m ∧
      ¬(m.network_velocity < 0.3 ∧ m.transaction_volume < 100000) ∧
      ((1000000 : ℚ) < m.liquidity_depth ∧ m.transaction_volume < 100000)) ∧
    (g.classify_pressure m = Core.PressureQuadrant.GoldenEra ↔
      g.gold_deviation m ≤ 0.18 ∧ -(0.18 : ℚ) ≤ g.gold_deviation m ∧
      ¬(m.network_velocity < 0.3 ∧ m.transaction_volume < 100000) ∧
      ¬((1000000 : ℚ) < m.liquidity_depth ∧ m.transaction_volume < 100000)) ∧
    (m.target_gold_price_usd = 0 → g.gold_deviation m = 0) := by
  unfold Core.GovernorPid.classify_pressure
  simp only [Core.GOLD_DEV_EMERGENCY, Core.HIGH_VELOCITY, Core.LOW_VELOCITY,
    Core.LOW_VOLUME, Core.HIGH_LIQUIDITY]
  refine ⟨?_, ?_, ?_, ?_, ?_, ?_, fun h => ?_⟩ <;>
    first
      | (simp [Core.GovernorPid.gold_deviation, h])
      | (split_ifs with h1 h2 h3 h4 h5 <;> simp_all <;> push_neg at * <;>
          first
            | tauto
            | (refine ⟨by linarith, by linarith, ?_, ?_⟩ <;> tauto)
            | linarith)

/-- Distributing `V · (w q / W)` over a list sums to `V · (Σw / W)`. -/
theorem sum_map_mul_div {α : Type} (V W : ℚ) (w : α → ℚ) (l : List α) :
    (l.map (fun q => V * (w q / W))).sum = V * ((l.map w).sum / W) := by
  induction l with
  | nil => simp
  | cons a t ih => simp [ih, add_div, mul_add]

/-- A sum of positive values over a non-empty list is positive. -/
theorem sum_map_pos {α : Type} (w : α → ℚ) (l : List α)
    (h : ∀ q ∈ l, 0 < w q) (h0 : l ≠ []) : 0 < (l.map w).sum := by
  match l, h0 with
  | a :: t, _ =>
    have ha := h a (by simp)
    have ht : 0 ≤ (t.map w).sum := by
      refine List.sum_nonneg ?_
      intro x hx
      obtain ⟨q, hq, rfl⟩ := List.mem_map.mp hx
      exact le_of_lt (h q (by simp [hq]))
    simp only [List.map_cons, List.sum_cons]
    linarith

/-- Dissolution weights are positive (`2` for shard holders, `1`
otherwise). -/
theorem nodeWeight_pos (sh : List ℕ) (q : Dissolution.GravityQualification) :
    0 < Dissolution.nodeWeight sh q := by
  unfold Dissolution.nodeWeight
  split <;> norm_num

/-- Claim C9 — `dissolve` returns `NoQualifiedNodes` when no node passes
all six criteria; `ZeroResidualValue` when some node qualifies but the
residual is non-positive; and otherwise pays each eligible node exactly
`V · wᵢ / Σw` with weight `2` for nodes whose id appears in the
shard-holder list and `1` otherwise — and those payments sum to exactly
`V`. -/
theorem c9_dissolve_weighted_distribution (V : ℚ)
    (quals : List Dissolution.GravityQualification) (sh : List ℕ) :
    (quals.filter (fun q => q.is_qualified) = [] →
      Dissolution.dissolve V quals sh =
        Except.error Dissolution.DissolutionError.noQualifiedNodes) ∧
    (quals.filter (fun q => q.is_qualified) ≠ [] → V ≤ 0 →
      Dissolution.dissolve V quals sh =
        Except.error Dissolution.DissolutionError.zeroResidualValue) ∧
    (quals.filter (fun q => q.is_qualified) ≠ [] → 0 < V →
      Dissolution.dissolve V quals sh =
        Except.ok
          { total_dissolved := V
            distributions := (quals.filter (fun q => q.is_qualified)).map (fun q =>
              Dissolution.GravityDistribution.mk q.node_id
                (V * (Dissolution.nodeWeight sh q /
                  ((quals.filter (fun q => q.is_qualified)).map
                    (Dissolution.nodeWeight sh)).sum))
                (sh.contains q.node_id)) } ∧
      (((quals.filter (fun q => q.is_qualified)).map (fun q =>
          V * (Dissolution.nodeWeight sh q /
            ((quals.filter (fun q => q.is_qualified)).map
              (Dissolution.nodeWeight sh)).sum))).sum = V)) := by
  refine ⟨fun h => ?_, fun h hV => ?_, fun h hV => ⟨?_, ?_⟩⟩
  · simp [Dissolution.dissolve, h]
  · simp [Dissolution.dissolve, h, hV]
  · simp only [Dissolution.dissolve, List.isEmpty_iff, h, not_le.mpr hV,
      if_neg h, if_neg (not_le.mpr hV), List.map_map]
    refine congrArg Except.ok ?_
    refine congrArg (Dissolution.DissolutionResult.mk V) ?_
    rfl
  · rw [sum_map_mul_div]
    rw [div_self]
    · exact mul_one V
    · exact ne_of_gt (sum_map_pos _ _ (fun q _ => nodeWeight_pos sh q) h)

/-- A tripped core conservation law rejects any settlement unchanged. -/
theorem verify_settlement_of_tripped (s : CoreConservation.ConservationLaw)
    (h : s.circuit_breaker_tripped = true) (i sv f d : ℚ) :
    s.verify_settlement i sv f d =
      (Except.error (CoreConservation.ConservationError.circuitBreakerTripped
        s.cumulative_error), s) := by
  simp [CoreConservation.ConservationLaw.verify_settlement, h]

/-- A tripped core conservation law is a fixed point of any sequence of
`verify_settlement` calls, every one rejected. -/
theorem runCalls_of_tripped (s : CoreConservation.ConservationLaw)
    (h : s.circuit_breaker_tripped = true)
    (calls : List CoreConservation.CallArgs) :
    CoreConservation.runCalls s calls =
      (s, calls.map (fun _ =>
        Except.error (CoreConservation.ConservationError.circuitBreakerTripped
          s.cumulative_error))) := by
  induction calls with
  | nil => simp [CoreConservation.runCalls]
  | cons a rest ih =>
    simp [CoreConservation.runCalls, verify_settlement_of_tripped s h, ih]

/-- Claim C2 — once the breaker is tripped, every subsequent
`verify_settlement` call returns `CircuitBreakerTripped` (whatever its
arguments) and leaves the whole law state — in particular the cumulative
error — unchanged; `reset_circuit_breaker` clears the flag and zeroes the
cumulative error (keeping the threshold); and from an untripped state one
call trips the breaker exactly when the updated cumulative error exceeds
the threshold. -/
theorem c2_circuit_breaker_latch_and_reset
    (s : CoreConservation.ConservationLaw) (calls : List CoreConservation.CallArgs)
    (a : CoreConservation.CallArgs) :
    (s.circuit_breaker_tripped = true →
      (CoreConservation.runCalls s calls).1 = s ∧
      ∀ r ∈ (CoreConservation.runCalls s calls).2,
        r = Except.error (CoreConservation.ConservationError.circuitBreakerTripped
              s.cumulative_error)) ∧
    (s.reset_circuit_breaker.circuit_breaker_tripped = false ∧
      s.reset_circuit_breaker.cumulative_error = 0 ∧
      s.reset_circuit_breaker.circuit_breaker_threshold = s.circuit_breaker_threshold) ∧
    (s.circuit_breaker_tripped = false →
      (s.verify_settlement a.initial_value a.settled_value a.fees
          a.demurrage).2.circuit_breaker_tripped =
        decide (s.circuit_breaker_threshold <
          s.cumulative_error +
            |a.initial_value - (a.settled_value + a.fees + a.demurrage)|)) := by
  refine ⟨fun h => ?_, ⟨rfl, rfl, rfl⟩, fun h => ?_⟩
  · rw [runCalls_of_tripped s h calls]
    simp
  · simp only [CoreConservation.ConservationLaw.verify_settlement, h]
    split_ifs with h1 h2 <;> simp_all

/-- Claim C6 counterexample — an untripped core conservation law
(threshold `0.001`) verifying a settlement with absolute error
`0.00005 ≤ 10⁻⁴` succeeds but does **not** leave the cumulative error
unchanged: `core_conservation.rs` line 94 accumulates the error before the
tolerance test. -/
theorem c6_tolerance_accumulation_counterexample :
    ((CoreConservation.ConservationLaw.new (1/1000)).verify_settlement
        (1/20000) 0 0 0).1 = Except.ok () ∧
    |(1/20000 : ℚ) - (0 + 0 + 0)| ≤ CoreConservation.SETTLEMENT_TOLERANCE ∧
    ((CoreConservation.ConservationLaw.new (1/1000)).verify_settlement
        (1/20000) 0 0 0).2.cumulative_error
      ≠ (CoreConservation.ConservationLaw.new (1/1000)).cumulative_error := by
  decide

/-- Claim C6 amended — in the core (Decimal) law, an untripped
`verify_settlement` call whose absolute error is at most the tolerance
`10⁻⁴` succeeds **provided** the error, which is added to the accumulator
unconditionally, keeps the cumulative error within the breaker threshold;
only the f64 law (`conservation.rs`) leaves the accumulator unchanged on a
balanced check, and there "balanced" means error strictly below the
tolerance. -/
theorem c6_verify_settlement_amended
    (s : CoreConservation.ConservationLaw) (t : ArenaConservation.ConservationLaw)
    (i sv f d : ℚ) :
    (s.circuit_breaker_tripped = false →
      s.cumulative_error + |i - (sv + f + d)| ≤ s.circuit_breaker_threshold →
      |i - (sv + f + d)| ≤ CoreConservation.SETTLEMENT_TOLERANCE →
      s.verify_settlement i sv f d =
        (Except.ok (),
         { s with cumulative_error := s.cumulative_error + |i - (sv + f + d)| })) ∧
    (|i - (sv + f + d)| < ArenaConservation.TOLERANCE →
      (t.verify_settlement i sv f d).1.balanced = true ∧
      (t.verify_settlement i sv f d).2.cumulative_error = t.cumulative_error) := by
  constructor
  · intro h1 h2 h3
    simp [CoreConservation.ConservationLaw.verify_settlement, h1,
      not_lt.mpr h2, not_lt.mpr h3]
  · intro h
    constructor
    · simp [ArenaConservation.ConservationLaw.verify_settlement, h]
    · simp only [ArenaConservation.ConservationLaw.verify_settlement, h]
      split_ifs <;> simp_all

/-- The byte counts the adapter attaches to transit nodes are all zero, so
their total is zero. -/
theorem totalBytes_adapter_zero (tids : List ℕ) :
    CoreFee.totalBytes (tids.map (fun i => (Arena.nodeName i, (0 : ℕ)))) = 0 := by
  induction tids with
  | nil => rfl
  | cons a l ih => simpa [CoreFee.totalBytes] using ih

/-- `totalBytes` over a cons cell. -/
theorem totalBytes_cons (x : CoreFee.NodeId) (b : ℕ) (l : List (CoreFee.NodeId × ℕ)) :
    CoreFee.totalBytes ((x, b) :: l) = b + CoreFee.totalBytes l := by
  simp [CoreFee.totalBytes]

/-- Claim C10 — `distribute_fee_via_core` (the engine's only route into the
fee distributor) invokes it with a relayed-byte count of zero for every
transit node, so its result is always the equal split: the egress receives
`fee · 0.80` (all of `fee` when the transit list is empty) and every
transit node receives the Decimal-rounded `(fee · 0.20) / n`; the
pro-rata-by-bytes branch is never taken.  Non-positive fees short-circuit
to `(0, 0)` without invoking the distributor. -/
theorem c10_engine_equal_split_distribution (fee : ℚ) (egress_id : ℕ)
    (tids : List ℕ) :
    (fee ≤ 0 → Arena.distribute_fee_via_core fee egress_id tids = (0, 0)) ∧
    (0 < fee → tids = [] →
      Arena.distribute_fee_via_core fee egress_id tids = (fee, 0)) ∧
    (0 < fee → tids ≠ [] →
      Arena.distribute_fee_via_core fee egress_id tids =
        (fee * 0.80, decDiv (fee * 0.20) tids.length)) := by
  refine ⟨fun h => ?_, fun h h0 => ?_, fun h h0 => ?_⟩
  · simp [Arena.distribute_fee_via_core, h]
  · subst h0
    simp [Arena.distribute_fee_via_core, not_le.mpr h, ne_of_gt h,
      CoreFee.FeeDistributor.distribute_fee]
  · match tids, h0 with
    | t :: rest, _ =>
      simp [Arena.distribute_fee_via_core, not_le.mpr h, ne_of_gt h,
        CoreFee.FeeDistributor.distribute_fee, totalBytes_cons,
        totalBytes_adapter_zero, CoreFee.FeeDistributor.default]

/-- Claim C8 — the per-packet value/fee bounds are an invariant of the node
cycle: for every cycle parameterisation with sound demurrage factors, every
tick, every buffer-key iteration order, and every starting state whose
nodes have non-negative transit-fee rates and whose live packets (in every
node buffer and on the global in-transit queue) satisfy
`0 ≤ current_value ≤ original_value` and `fees_consumed ≤ fee_budget + ε`,
all live packets of the post-cycle state still satisfy those bounds (and
the fee rates stay non-negative, so the invariant carries to every later
tick). -/
theorem c8_packet_value_fee_invariant (P : Arena.CycleParams)
    (current_tick : ℕ) (key_order : List ℕ) (s : Arena.CState) (eps : ℚ)
    (heps : 0 ≤ eps) (hP : Arena.GoodParams P)
    (hn : Arena.NodesOk s) (hs : Arena.StateInv eps s) :
    Arena.NodesOk (Arena.execute_node_cycle P current_tick key_order s) ∧
    Arena.StateInv eps (Arena.execute_node_cycle P current_tick key_order s) := by
  unfold Arena.execute_node_cycle
  induction key_order generalizing s with
  | nil => exact ⟨hn, hs⟩
  | cons k rest ih =>
    rw [List.foldl_cons]
    obtain ⟨hn1, hs1⟩ := execNode_spec P current_tick s k heps hP hn hs
    exact ih _ hn1 hs1

/-- Closed instance of the C8 invariant theorem on a concrete one-node,
one-packet state. -/
theorem c8_packet_value_fee_invariant_witness :
    Arena.NodesOk (Arena.execute_node_cycle c8Params 1 [0] c8State) ∧
    Arena.StateInv 0 (Arena.execute_node_cycle c8Params 1 [0] c8State) :=
  c8_packet_value_fee_invariant c8Params 1 [0] c8State 0 (le_refl 0)
    (by intro t; cases t <;> constructor <;> norm_num [c8Params])
    (by unfold Arena.NodesOk; decide)
    (by unfold Arena.StateInv Arena.PacketInv; decide)
